import Mathlib

/-!
Shallow embedding of the WALT CPU halt/pause coordination subsystem of this
repository: `kernel/sched/walt/walt_halt.c` (drain-based variant) and
`kernel/sched/walt/walt_pause.c` (delegate-based variant).

Modelling conventions:
* `u64` timestamps are natural numbers; `u64` subtraction is `wsub`
  (wraparound modulo `2 ^ 64`).
* C `int` values (`ref_count`, return codes) are integers `ℤ`.
* `struct cpumask` is a function `ℕ → Bool`; `for_each_cpu` iterates the set
  bits of cpus `0 .. nr_cpus - 1` in ascending order, embedded as
  `(List.range nr_cpus).filter mask`.
* External scheduler-core collaborators (`cpu_online`, `available_idle_cpu`,
  `stop_one_cpu`, `sched_clock`, `select_fallback_rq`) are abstract parameters
  collected in an environment record.  Per-CPU loops whose iterations touch
  only their own CPU's record are embedded pointwise.
* To make "the drain engine was (not) invoked" provable, the embedding of the
  halt path additionally returns the trace of CPUs on which `cpu_drain_rq`
  was entered and on which `stop_one_cpu` was actually called.  This trace is
  instrumentation only; the state transitions follow the C source.
-/

namespace Walt

/-- `u64` wraparound subtraction `a - b` (both operands below `2 ^ 64`). -/
def wsub (a b : ℕ) : ℕ :=
  (a + 2 ^ 64 - b) % 2 ^ 64

/-- `WALT_HALT_CHECK_THRESHOLD_NS` (walt_halt.c line 27): 400 microseconds. -/
def WALT_HALT_CHECK_THRESHOLD_NS : ℕ := 400000

/-- `struct halt_cpu_state` (walt_halt.c lines 17-20): per-CPU record of the
last halt timestamp (`0` = unset) and the halt reference count. -/
structure HaltCpuState where
  last_halt : ℕ
  ref_count : ℤ
  deriving DecidableEq

/-- The mutable global state of walt_halt.c: the per-CPU `halt_state` table
and the global `__cpu_halt_mask`. -/
structure WaltState where
  halt_state : ℕ → HaltCpuState
  cpu_halt_mask : ℕ → Bool

/-- Abstract external collaborators consumed from the scheduler core:
the number of possible cpus, `cpu_online`, `available_idle_cpu`, the result
of `stop_one_cpu cpu drain_rq_cpu_stop` for each cpu, and the value of
`sched_clock()` at the start of the current coordinator call. -/
structure Env where
  nr_cpus : ℕ
  online : ℕ → Bool
  avail_idle : ℕ → Bool
  stop_result : ℕ → ℤ
  now : ℕ

/-- The ascending list of cpus set in mask `m`, as traversed by
`for_each_cpu`. -/
def cpuList (env : Env) (m : ℕ → Bool) : List ℕ :=
  (List.range env.nr_cpus).filter m

/-- `cpumask_empty` on the first `nr_cpus` bits. -/
def cpumask_empty (env : Env) (m : ℕ → Bool) : Bool :=
  (cpuList env m).isEmpty

/-- `cpu_drain_rq` (walt_halt.c lines 177-183): succeed immediately for an
available-idle cpu, otherwise run the drain under `stop_one_cpu`. -/
def cpu_drain_rq (env : Env) (cpu : ℕ) : ℤ :=
  if env.avail_idle cpu then 0 else env.stop_result cpu

/-- `walt_halt_check_last` (walt_halt.c lines 189-198): lock-free check of
`last_halt` against `sched_clock()`; returns `false` only when `last_halt`
is set and older than the threshold. -/
def walt_halt_check_last (env : Env) (s : WaltState) (cpu : ℕ) : Bool :=
  if (s.halt_state cpu).last_halt ≠ 0 ∧
      WALT_HALT_CHECK_THRESHOLD_NS < wsub env.now (s.halt_state cpu).last_halt
  then false
  else true

/-- The spec's description of `recently_halted(cpu)`: "true if CPU is
currently halted and was halted within a fixed recency threshold".  Written
from the spec's words, for comparison with `walt_halt_check_last`. -/
abbrev recentlyHaltedSpec (env : Env) (s : WaltState) (cpu : ℕ) : Prop :=
  s.cpu_halt_mask cpu = true ∧
    wsub env.now (s.halt_state cpu).last_halt ≤ WALT_HALT_CHECK_THRESHOLD_NS

/-- Result of the per-cpu halt loop: final state, `ret`, and the
instrumentation traces (cpus for which `cpu_drain_rq` ran, cpus on which
`stop_one_cpu` was called). -/
structure HaltLoopRes where
  state : WaltState
  ret : ℤ
  drained : List ℕ
  stopped : List ℕ

/-- One halt iteration's state writes (walt_halt.c lines 216-224): set the
cpu's halt-mask bit and then (`wmb`-ordered) record
`last_halt := start_time`. -/
def halt_one (start_time cpu : ℕ) (s : WaltState) : WaltState :=
  ⟨fun c => if c = cpu then ⟨start_time, (s.halt_state c).ref_count⟩
    else s.halt_state c,
   fun c => if c = cpu then true else s.cpu_halt_mask c⟩

/-- `cpumask_clear_cpu(cpu, cpu_halt_mask)` on the drain-failure path
(walt_halt.c line 234). -/
def unhalt_mask (cpu : ℕ) (s : WaltState) : WaltState :=
  ⟨s.halt_state, fun c => if c = cpu then false else s.cpu_halt_mask c⟩

/-- Instrumentation: `cpu_drain_rq` is entered exactly for online cpus
(walt_halt.c line 227). -/
def drainTrace (env : Env) (cpu : ℕ) : List ℕ :=
  if env.online cpu then [cpu] else []

/-- Instrumentation: `stop_one_cpu` is reached exactly for online cpus that
are not available-idle (walt_halt.c lines 179-182, 227-229). -/
def stopTrace (env : Env) (cpu : ℕ) : List ℕ :=
  if env.online cpu && !env.avail_idle cpu then [cpu] else []

/-- The `for_each_cpu` body of `halt_cpus` (walt_halt.c lines 214-237):
set the halt-mask bit, record `last_halt := start_time` (after the mask
write, `wmb`-ordered), drain online cpus, and on a drain failure clear the
mask bit and break out of the loop.  `ret` persists across iterations as
in the C source. -/
def halt_cpus_go (env : Env) (start_time : ℕ) :
    WaltState → ℤ → List ℕ → HaltLoopRes
  | s, ret, [] => ⟨s, ret, [], []⟩
  | s, ret, cpu :: rest =>
    let s1 := halt_one start_time cpu s
    let ret1 : ℤ := if env.online cpu then cpu_drain_rq env cpu else ret
    if ret1 < 0 then
      ⟨unhalt_mask cpu s1, ret1, drainTrace env cpu, stopTrace env cpu⟩
    else
      let r := halt_cpus_go env start_time s1 ret1 rest
      ⟨r.state, r.ret, drainTrace env cpu ++ r.drained,
        stopTrace env cpu ++ r.stopped⟩

/-- `halt_cpus` (walt_halt.c lines 205-242): run the loop with
`start_time = sched_clock()` and initial `ret = 0`. -/
def halt_cpus (env : Env) (s : WaltState) (cpus : ℕ → Bool) : HaltLoopRes :=
  halt_cpus_go env env.now s 0 (cpuList env cpus)

/-- `start_cpus` (walt_halt.c lines 248-269): for each cpu in the mask,
zero `last_halt` and (after a `wmb`) clear the halt-mask bit; always
returns 0.  Each iteration touches only its own cpu, so the loop is
embedded pointwise. -/
def start_cpus (env : Env) (s : WaltState) (cpus : ℕ → Bool) :
    WaltState × ℤ :=
  (⟨fun c => if cpus c = true ∧ c < env.nr_cpus then
      ⟨0, (s.halt_state c).ref_count⟩ else s.halt_state c,
    fun c => if cpus c = true ∧ c < env.nr_cpus then false
      else s.cpu_halt_mask c⟩, 0)

/-- `update_ref_counts` (walt_halt.c lines 272-286): increment (`halt`) or
decrement (`!halt`) the ref count of every cpu in the mask.  The second
component is the list of cpus for which `WARN_ON_ONCE(ref_count == 0)`
fires on the decrement path.  Each iteration touches only its own cpu, so
the state change is embedded pointwise. -/
def update_ref_counts (env : Env) (s : WaltState) (cpus : ℕ → Bool)
    (halt : Bool) : WaltState × List ℕ :=
  (⟨fun c => if cpus c = true ∧ c < env.nr_cpus then
      (if halt then
        ⟨(s.halt_state c).last_halt, (s.halt_state c).ref_count + 1⟩
      else
        ⟨(s.halt_state c).last_halt, (s.halt_state c).ref_count - 1⟩)
      else s.halt_state c,
    s.cpu_halt_mask⟩,
   if halt then []
   else (cpuList env cpus).filter (fun c => (s.halt_state c).ref_count == 0))

/-- `update_halt_cpus` (walt_halt.c lines 289-299): clear from the request
mask every cpu whose ref count is nonzero. -/
def update_halt_cpus (env : Env) (s : WaltState) (cpus : ℕ → Bool) :
    ℕ → Bool :=
  fun c => if c < env.nr_cpus ∧ (s.halt_state c).ref_count ≠ 0 then false
    else cpus c

/-- Result of `walt_halt_cpus`: final state, return value, the caller's
(modified) cpu mask, and the drain instrumentation traces. -/
structure HaltResult where
  state : WaltState
  ret : ℤ
  cpus : ℕ → Bool
  drained : List ℕ
  stopped : List ℕ

/-- `walt_halt_cpus` (walt_halt.c lines 302-331): under `halt_lock`, copy
the request, filter out already-halted cpus, halt the remainder, and on
success increment the ref count of every cpu of the original request. -/
def walt_halt_cpus (env : Env) (s : WaltState) (cpus : ℕ → Bool) :
    HaltResult :=
  let requested := cpus
  let cpus1 := update_halt_cpus env s cpus
  if cpumask_empty env cpus1 then
    ⟨(update_ref_counts env s requested true).1, 0, cpus1, [], []⟩
  else
    let r := halt_cpus env s cpus1
    if r.ret < 0 then
      ⟨r.state, r.ret, cpus1, r.drained, r.stopped⟩
    else
      ⟨(update_ref_counts env r.state requested true).1, r.ret, cpus1,
        r.drained, r.stopped⟩

/-- Result of `walt_start_cpus`: final state, return value, the caller's
(modified) cpu mask, and the cpus that triggered the underflow warning. -/
structure StartResult where
  state : WaltState
  ret : ℤ
  cpus : ℕ → Bool
  warns : List ℕ

/-- `walt_start_cpus` (walt_halt.c lines 340-365): under `halt_lock`, copy
the request, decrement all ref counts, filter out cpus whose ref count is
still nonzero, and start the remainder; on a (dead, see `start_cpus`)
error path the ref counts would be re-incremented. -/
def walt_start_cpus (env : Env) (s : WaltState) (cpus : ℕ → Bool) :
    StartResult :=
  let requested := cpus
  let u := update_ref_counts env s requested false
  let cpus1 := update_halt_cpus env u.1 cpus
  let r := start_cpus env u.1 cpus1
  if r.2 < 0 then
    ⟨(update_ref_counts env r.1 requested true).1, r.2, cpus1, u.2⟩
  else
    ⟨r.1, r.2, cpus1, u.2⟩

/-- `walt_halt_init` (walt_halt.c lines 373-375): the body is empty; in
particular it registers no cpu-hotplug online callback.  The boolean
argument models whether an online callback is registered. -/
def walt_halt_init (hp_online_registered : Bool) : Bool :=
  hp_online_registered

/-- The singleton cpu set `{c}`. -/
def oneCpu (c : ℕ) : ℕ → Bool :=
  fun x => x == c

/-- The spec's coordinator/mask consistency relation: a cpu is in the halt
mask iff its ref count is positive. -/
abbrev haltMaskConsistent (env : Env) (s : WaltState) : Prop :=
  ∀ c, c < env.nr_cpus →
    (s.cpu_halt_mask c = true ↔ 0 < (s.halt_state c).ref_count)

/-!  The delegate-based variant, `walt_pause.c`.  Its per-cpu state is just
an `int ref_count` (`struct pause_cpu_state`); the actual pausing is
delegated to the platform primitives `pause_cpus`/`resume_cpus`, which are
external collaborators. -/

/-- External collaborators of walt_pause.c: possible-cpu count,
`cpu_online_mask`, and the result of the platform `pause_cpus` call. -/
structure PauseEnv where
  nr_cpus : ℕ
  online : ℕ → Bool
  pause_cpus_ret : ℤ

/-- `inc_ref_counts` (walt_pause.c lines 20-31): for every cpu of the mask,
clear it from the mask when its ref count is already nonzero, and increment
the ref count regardless.  Returns (new ref counts, modified mask); each
iteration touches only its own cpu, so the loop is embedded pointwise. -/
def inc_ref_counts (env : PauseEnv) (ref : ℕ → ℤ) (cpus : ℕ → Bool) :
    (ℕ → ℤ) × (ℕ → Bool) :=
  (fun c => if cpus c = true ∧ c < env.nr_cpus then ref c + 1 else ref c,
   fun c => if c < env.nr_cpus ∧ ref c ≠ 0 then false else cpus c)

/-- Result of `dec_test_ref_counts`: new ref counts, the mask narrowed to
cpus ready to be unpaused, and the cpus that fired
`WARN_ON_ONCE(ref_count == 0)`. -/
structure DecTestRes where
  ref : ℕ → ℤ
  cpus : ℕ → Bool
  warns : List ℕ

/-- `dec_test_ref_counts` (walt_pause.c lines 37-49): warn when the count is
already zero, decrement it regardless, and clear the cpu from the mask when
the decremented count is still nonzero. -/
def dec_test_ref_counts (env : PauseEnv) (ref : ℕ → ℤ) (cpus : ℕ → Bool) :
    DecTestRes :=
  ⟨fun c => if cpus c = true ∧ c < env.nr_cpus then ref c - 1 else ref c,
   fun c => if c < env.nr_cpus ∧ ref c - 1 ≠ 0 then false else cpus c,
   ((List.range env.nr_cpus).filter cpus).filter
     (fun c => ref c == 0)⟩

/-- Result of the deferred online work: the re-pause set it builds, whether
the platform `pause_cpus` primitive was invoked on it, and the returned
value. -/
structure WorkfnRes where
  re_pause_cpus : ℕ → Bool
  pause_invoked : Bool
  ret : ℤ

/-- `walt_pause_online_workfn` (walt_pause.c lines 142-171): under the pause
lock, scan all online cpus, collect those with a nonzero ref count into
`re_pause_cpus`, and invoke the platform `pause_cpus` on that set unless it
is empty. -/
def walt_pause_online_workfn (env : PauseEnv) (ref : ℕ → ℤ) : WorkfnRes :=
  if ((List.range env.nr_cpus).filter
      (fun c => env.online c && decide (ref c ≠ 0))).isEmpty then
    ⟨fun c => decide (c < env.nr_cpus) && env.online c &&
      decide (ref c ≠ 0), false, 0⟩
  else
    ⟨fun c => decide (c < env.nr_cpus) && env.online c &&
      decide (ref c ≠ 0), true, env.pause_cpus_ret⟩

/-- `walt_pause_hp_online` (walt_pause.c lines 174-182): in the hotplug
callback itself, only schedule the deferred work, and only when the onlined
cpu's ref count is nonzero.  Returns (work scheduled?, return value 0). -/
def walt_pause_hp_online (ref : ℕ → ℤ) (online_cpu : ℕ) : Bool × ℤ :=
  (decide (ref online_cpu ≠ 0), 0)

/-- `walt_pause_init` (walt_pause.c lines 184-195): registers the
`walt-pause/online` hotplug callback (contrast `walt_halt_init`, which
registers nothing). -/
def walt_pause_init (_hp_online_registered : Bool) : Bool :=
  true

/-!  The drain engine, `migrate_tasks` (walt_halt.c lines 71-163).
Tasks carry the fields the algorithm inspects: an identity, a priority
(used by the pick policy), and whether they are per-CPU kthreads.
`Rq.tasks` holds the queued runnable tasks other than the currently
running stopper thread (`rq->nr_running` is `tasks.length + 1`, and the
loop's `nr_running == 1` exit is `tasks = []`); `Rq.stop` is the
`rq->stop` pointer.  `select_fallback_rq` is an external scheduler-core
collaborator and is kept abstract.  In the stop-machine context nothing
concurrent can change a task between the `rq_unlock`/`rq_relock` dance
and the recheck, so the `task_rq(next) != rq` skip branch is vacuous in
this sequential embedding. -/

/-- A runnable task, with the fields `migrate_tasks` inspects. -/
structure Task where
  id : ℕ
  prio : ℕ
  per_cpu_kthread : Bool
  deriving DecidableEq

/-- A run queue: its cpu, its queued runnable tasks (excluding the running
stopper thread), and the `rq->stop` pointer. -/
structure Rq where
  cpu : ℕ
  tasks : List Task
  stop : Option Task
  deriving DecidableEq

/-- Modelled from the spec: `pick_migrate_task` is repository code outside
the provided sources; per the spec it selects "a migration candidate using
the same selection policy the scheduler uses for normal preemption
(highest-priority runnable task)".  This fold returns a highest-priority
task among `best` and the list. -/
def pick_migrate_task : Task → List Task → Task
  | best, [] => best
  | best, t :: rest =>
    pick_migrate_task (if best.prio < t.prio then t else best) rest

/-- The `for (;;)` loop of `migrate_tasks` (walt_halt.c lines 103-157):
while runnable tasks remain beyond the running stopper, pick a migration
candidate; detach per-cpu kthreads onto the `percpu_kthreads` side list
(LIFO, `list_add`); migrate anything else to `select_fallback_rq`'s choice,
recorded in the `migrated` output with its destination. -/
def migrate_tasks_loop (fb : Task → ℕ) (pending kthreads : List Task)
    (migrated : List (Task × ℕ)) : List Task × List (Task × ℕ) :=
  match pending with
  | [] => (kthreads, migrated)
  | t :: rest =>
    if (pick_migrate_task t rest).per_cpu_kthread then
      migrate_tasks_loop fb ((t :: rest).erase (pick_migrate_task t rest))
        (pick_migrate_task t rest :: kthreads) migrated
    else
      migrate_tasks_loop fb ((t :: rest).erase (pick_migrate_task t rest))
        kthreads
        (migrated ++ [(pick_migrate_task t rest,
          fb (pick_migrate_task t rest))])
termination_by pending.length
decreasing_by
  all_goals
    have hmem : ∀ (l : List Task) (b : Task),
        pick_migrate_task b l ∈ b :: l := by
      intro l
      induction l with
      | nil =>
        intro b
        simp [pick_migrate_task]
      | cons x xs ih =>
        intro b
        have h := ih (if b.prio < x.prio then x else b)
        show pick_migrate_task (if b.prio < x.prio then x else b) xs ∈
          b :: x :: xs
        rcases List.mem_cons.mp h with h1 | h1
        · rw [h1]
          by_cases hx : b.prio < x.prio <;> simp [hx]
        · simp [List.mem_cons, h1]
  all_goals
    have hmem' : pick_migrate_task t rest ∈ t :: rest := hmem rest t
  all_goals
    rw [List.length_erase_of_mem hmem']
  all_goals
    simp [List.length_cons]

/-- `migrate_tasks` (walt_halt.c lines 71-163): clear `rq->stop` so the
pick loop cannot return the stop class, run the migration loop, reattach
the detached per-cpu kthreads to the same queue, and restore `rq->stop`.
`select_fallback_rq` is the abstract affinity-fallback rule, applied to
the dead queue's cpu and the candidate task.  Also returns the list of
(task, destination cpu) migrations performed. -/
def migrate_tasks (select_fallback_rq : ℕ → Task → ℕ) (rq : Rq) :
    Rq × List (Task × ℕ) :=
  let stop := rq.stop
  let rq1 : Rq := { rq with stop := none }
  let r := migrate_tasks_loop (fun p => select_fallback_rq rq.cpu p)
    rq1.tasks [] []
  ({ rq1 with tasks := r.1, stop := stop }, r.2)

end Walt

namespace Walt

/-- Concrete fixture: a state in which no cpu has ever been halted. -/
def state0 : WaltState :=
  ⟨fun _ => ⟨0, 0⟩, fun _ => false⟩

/-- Concrete fixture: two online, non-idle cpus whose drains succeed. -/
def env2 : Env :=
  ⟨2, fun _ => true, fun _ => false, fun _ => 0, 1000000⟩

/-- Concrete fixture: two online, non-idle cpus; cpu 1's drain fails with
`-EINVAL` (-22) while cpu 0 drains fine. -/
def envC6 : Env :=
  ⟨2, fun _ => true, fun _ => false, fun c => if c = 1 then -22 else 0,
    1000⟩

/-- Concrete fixture: one online cpu that is available-idle; its
`stop_one_cpu` result is an error, to show the stop path is not reached. -/
def envIdle : Env :=
  ⟨1, fun _ => true, fun _ => true, fun _ => -5, 777⟩

/-- The cpu set `{0, 1}`. -/
def bothCpus : ℕ → Bool :=
  fun c => c == 0 || c == 1

/-- Concrete pause-variant fixture: two online cpus, platform pause
succeeding. -/
def pauseEnv1 : PauseEnv :=
  ⟨2, fun _ => true, 0⟩

/-- Concrete pause-variant ref counts: cpu 0 paused once. -/
def pref1 : ℕ → ℤ :=
  fun c => if c = 0 then 1 else 0

/-- Concrete drain-engine fixture: the one migratable task. -/
def taskM : Task :=
  ⟨0, 5, false⟩

/-- Concrete drain-engine fixture: a pinned kthread. -/
def taskK1 : Task :=
  ⟨1, 7, true⟩

/-- Concrete drain-engine fixture: another pinned kthread. -/
def taskK2 : Task :=
  ⟨2, 3, true⟩

/-- Concrete run queue on cpu 3 with one migratable task and two pinned
kthreads, stop placeholder present. -/
def rqW : Rq :=
  ⟨3, [taskM, taskK1, taskK2], some ⟨99, 0, true⟩⟩

/-- Concrete affinity-fallback rule sending everything to cpu 7. -/
def fbW : ℕ → Task → ℕ :=
  fun _ _ => 7

/-- State after `halt({0})` from the all-zero state on `env2`. -/
def sW1 : WaltState :=
  (walt_halt_cpus env2 state0 (oneCpu 0)).state

/-- State after a second `halt({0})`. -/
def sW2 : WaltState :=
  (walt_halt_cpus env2 sW1 (oneCpu 0)).state

/-- State after a first `resume({0})` following the two halts. -/
def sW3 : WaltState :=
  (walt_start_cpus env2 sW2 (oneCpu 0)).state

end Walt

namespace Walt

theorem wsub_zero (a : ℕ) (h : a < 2 ^ 64) : wsub a 0 = a := by
  unfold wsub
  omega

/-- C1, counterexample: on a cpu that has never been halted
(`last_halt = 0`, halt-mask bit clear), `walt_halt_check_last` returns
`true`, while the claimed equivalence with "currently halted and within the
recency threshold" demands `false`. -/
theorem c1_counterexample :
    ¬ (walt_halt_check_last env2 state0 0 = true ↔
        recentlyHaltedSpec env2 state0 0) := by
  decide

/-- C1, amended: `walt_halt_check_last` ignores the halt mask entirely; it
returns `true` iff `last_halt` is unset (zero) or the elapsed time since
`last_halt` is at most the 400-microsecond threshold.  In particular it
returns `true`, not `false`, for a cpu that has never been halted. -/
theorem c1_check_last_characterization (env : Env) (s : WaltState) (cpu : ℕ) :
    walt_halt_check_last env s cpu = true ↔
      ((s.halt_state cpu).last_halt = 0 ∨
        wsub env.now (s.halt_state cpu).last_halt ≤
          WALT_HALT_CHECK_THRESHOLD_NS) := by
  unfold walt_halt_check_last
  by_cases h : (s.halt_state cpu).last_halt ≠ 0 ∧
      WALT_HALT_CHECK_THRESHOLD_NS < wsub env.now (s.halt_state cpu).last_halt
  · rw [if_pos h]
    simp only [Bool.false_eq_true, false_iff]
    push_neg
    exact ⟨h.1, h.2⟩
  · rw [if_neg h]
    push_neg at h
    constructor
    · intro _
      by_cases hz : (s.halt_state cpu).last_halt = 0
      · exact Or.inl hz
      · exact Or.inr (h hz)
    · intro _
      rfl

theorem mem_cpuList (env : Env) (m : ℕ → Bool) (c : ℕ) :
    c ∈ cpuList env m ↔ c < env.nr_cpus ∧ m c = true := by
  simp [cpuList, List.mem_filter, List.mem_range]

theorem cpumask_empty_iff (env : Env) (m : ℕ → Bool) :
    cpumask_empty env m = true ↔ ∀ c, c < env.nr_cpus → m c = false := by
  simp only [cpumask_empty, List.isEmpty_iff, cpuList, List.filter_eq_nil_iff,
    List.mem_range]
  constructor
  · intro h c hc
    exact Bool.not_eq_true _ ▸ (by simpa using h c hc)
  · intro h c hc
    simp [h c hc]

theorem mem_actionList (env : Env) (s : WaltState) (cpus : ℕ → Bool) (c : ℕ) :
    c ∈ cpuList env (update_halt_cpus env s cpus) ↔
      c < env.nr_cpus ∧ cpus c = true ∧ (s.halt_state c).ref_count = 0 := by
  rw [mem_cpuList]
  unfold update_halt_cpus
  constructor
  · rintro ⟨hc, hv⟩
    refine ⟨hc, ?_, ?_⟩
    · by_cases hz : (s.halt_state c).ref_count ≠ 0
      · rw [if_pos ⟨hc, hz⟩] at hv
        exact absurd hv (by simp)
      · rwa [if_neg (by tauto)] at hv
    · by_cases hz : (s.halt_state c).ref_count ≠ 0
      · rw [if_pos ⟨hc, hz⟩] at hv
        exact absurd hv (by simp)
      · exact not_not.mp hz
  · rintro ⟨hc, hm, hz⟩
    refine ⟨hc, ?_⟩
    rw [if_neg (by simp [hz]), hm]

theorem halt_cpus_go_nil (env : Env) (t : ℕ) (s : WaltState) (r : ℤ) :
    halt_cpus_go env t s r [] = ⟨s, r, [], []⟩ :=
  rfl

theorem halt_cpus_go_cons_break (env : Env) (t : ℕ) (s : WaltState) (r : ℤ)
    (cpu : ℕ) (rest : List ℕ)
    (hb : (if env.online cpu then cpu_drain_rq env cpu else r) < 0) :
    halt_cpus_go env t s r (cpu :: rest) =
      ⟨unhalt_mask cpu (halt_one t cpu s),
        (if env.online cpu then cpu_drain_rq env cpu else r),
        drainTrace env cpu, stopTrace env cpu⟩ := by
  simp only [halt_cpus_go, hb, reduceIte]

theorem halt_cpus_go_cons_no_break (env : Env) (t : ℕ) (s : WaltState)
    (r : ℤ) (cpu : ℕ) (rest : List ℕ)
    (hb : ¬ (if env.online cpu then cpu_drain_rq env cpu else r) < 0) :
    halt_cpus_go env t s r (cpu :: rest) =
      ⟨(halt_cpus_go env t (halt_one t cpu s)
          (if env.online cpu then cpu_drain_rq env cpu else r) rest).state,
       (halt_cpus_go env t (halt_one t cpu s)
          (if env.online cpu then cpu_drain_rq env cpu else r) rest).ret,
       drainTrace env cpu ++ (halt_cpus_go env t (halt_one t cpu s)
          (if env.online cpu then cpu_drain_rq env cpu else r) rest).drained,
       stopTrace env cpu ++ (halt_cpus_go env t (halt_one t cpu s)
          (if env.online cpu then cpu_drain_rq env cpu else r) rest).stopped⟩ := by
  simp only [halt_cpus_go, hb, reduceIte]

theorem halt_cpus_go_ref_unchanged (env : Env) (t : ℕ) (l : List ℕ) :
    ∀ (s : WaltState) (r : ℤ) (c : ℕ),
      ((halt_cpus_go env t s r l).state.halt_state c).ref_count =
        (s.halt_state c).ref_count := by
  induction l with
  | nil =>
    intro s r c
    rfl
  | cons cpu rest ih =>
    intro s r c
    by_cases hb : (if env.online cpu then cpu_drain_rq env cpu else r) < 0
    · rw [halt_cpus_go_cons_break env t s r cpu rest hb]
      simp only [unhalt_mask, halt_one]
      by_cases hc : c = cpu <;> simp [hc]
    · rw [halt_cpus_go_cons_no_break env t s r cpu rest hb]
      show ((halt_cpus_go env t (halt_one t cpu s) _ rest).state.halt_state
          c).ref_count = _
      rw [ih]
      simp only [halt_one]
      by_cases hc : c = cpu <;> simp [hc]

theorem halt_cpus_go_succ (env : Env) (t : ℕ) (l : List ℕ) :
    ∀ (s : WaltState) (r : ℤ),
      0 ≤ (halt_cpus_go env t s r l).ret →
      (∀ c, (halt_cpus_go env t s r l).state.cpu_halt_mask c =
          (if c ∈ l then true else s.cpu_halt_mask c)) ∧
      (∀ c, (halt_cpus_go env t s r l).state.halt_state c =
          (if c ∈ l then ⟨t, (s.halt_state c).ref_count⟩
            else s.halt_state c)) ∧
      (halt_cpus_go env t s r l).drained =
        l.filter (fun c => env.online c) ∧
      (halt_cpus_go env t s r l).stopped =
        l.filter (fun c => env.online c && !env.avail_idle c) := by
  induction l with
  | nil =>
    intro s r _
    refine ⟨fun c => by simp [halt_cpus_go_nil], fun c => by
      simp [halt_cpus_go_nil], by simp [halt_cpus_go_nil], by
      simp [halt_cpus_go_nil]⟩
  | cons cpu rest ih =>
    intro s r h
    by_cases hb : (if env.online cpu then cpu_drain_rq env cpu else r) < 0
    · exfalso
      rw [halt_cpus_go_cons_break env t s r cpu rest hb] at h
      have h' : 0 ≤ (if env.online cpu then cpu_drain_rq env cpu else r) := h
      omega
    · rw [halt_cpus_go_cons_no_break env t s r cpu rest hb] at h ⊢
      obtain ⟨hm, hs, hd, hst⟩ := ih (halt_one t cpu s)
        (if env.online cpu then cpu_drain_rq env cpu else r) h
      refine ⟨?_, ?_, ?_, ?_⟩
      · intro c
        show (halt_cpus_go env t (halt_one t cpu s) _ rest).state.cpu_halt_mask
            c = _
        rw [hm c]
        by_cases h1 : c ∈ rest <;> by_cases h2 : c = cpu <;>
          simp [halt_one, h1, h2, List.mem_cons]
      · intro c
        show (halt_cpus_go env t (halt_one t cpu s) _ rest).state.halt_state
            c = _
        rw [hs c]
        by_cases h1 : c ∈ rest <;> by_cases h2 : c = cpu <;>
          simp [halt_one, h1, h2, List.mem_cons]
      · show drainTrace env cpu ++
            (halt_cpus_go env t (halt_one t cpu s) _ rest).drained = _
        rw [hd, List.filter_cons]
        by_cases ho : env.online cpu <;> simp [drainTrace, ho]
      · show stopTrace env cpu ++
            (halt_cpus_go env t (halt_one t cpu s) _ rest).stopped = _
        rw [hst, List.filter_cons]
        by_cases ho : env.online cpu <;> by_cases hi : env.avail_idle cpu <;>
          simp [stopTrace, ho, hi]

theorem mem_stopTrace (env : Env) (cpu c : ℕ) (h : c ∈ stopTrace env cpu) :
    env.online c = true ∧ env.avail_idle c = false := by
  by_cases hoi : (env.online cpu && !env.avail_idle cpu) = true
  · simp only [stopTrace, hoi, reduceIte, List.mem_singleton] at h
    subst h
    simp only [Bool.and_eq_true, Bool.not_eq_true'] at hoi
    exact hoi
  · simp [stopTrace, hoi] at h

theorem halt_cpus_go_stopped_mem (env : Env) (t : ℕ) (l : List ℕ) :
    ∀ (s : WaltState) (r : ℤ) (c : ℕ),
      c ∈ (halt_cpus_go env t s r l).stopped →
      env.online c = true ∧ env.avail_idle c = false := by
  induction l with
  | nil =>
    intro s r c hc
    simp [halt_cpus_go_nil] at hc
  | cons cpu rest ih =>
    intro s r c hc
    by_cases hb : (if env.online cpu then cpu_drain_rq env cpu else r) < 0
    · rw [halt_cpus_go_cons_break env t s r cpu rest hb] at hc
      exact mem_stopTrace env cpu c hc
    · rw [halt_cpus_go_cons_no_break env t s r cpu rest hb] at hc
      have hc' : c ∈ stopTrace env cpu ++
          (halt_cpus_go env t (halt_one t cpu s)
            (if env.online cpu then cpu_drain_rq env cpu else r)
            rest).stopped := hc
      rcases List.mem_append.mp hc' with h | h
      · exact mem_stopTrace env cpu c h
      · exact ih _ _ c h

theorem halt_cpus_go_ret_ok (env : Env) (t : ℕ) (l : List ℕ) :
    ∀ (s : WaltState) (r : ℤ), 0 ≤ r →
      (∀ c ∈ l, env.online c = true → cpu_drain_rq env c = 0) →
      ((halt_cpus_go env t s r l).ret = r ∨
        (halt_cpus_go env t s r l).ret = 0) := by
  induction l with
  | nil =>
    intro s r _ _
    left
    rfl
  | cons cpu rest ih =>
    intro s r hr hd
    have hx : (if env.online cpu then cpu_drain_rq env cpu else r) = 0 ∨
        (if env.online cpu then cpu_drain_rq env cpu else r) = r := by
      by_cases ho : env.online cpu = true
      · left
        simp [ho, hd cpu (List.mem_cons_self cpu rest) ho]
      · right
        simp [ho]
    have hb : ¬ (if env.online cpu then cpu_drain_rq env cpu else r) < 0 := by
      rcases hx with h | h <;> omega
    rw [halt_cpus_go_cons_no_break env t s r cpu rest hb]
    have hrec := ih (halt_one t cpu s)
      (if env.online cpu then cpu_drain_rq env cpu else r)
      (by rcases hx with h | h <;> omega)
      (fun c hc hoc => hd c (List.mem_cons_of_mem _ hc) hoc)
    show (halt_cpus_go env t (halt_one t cpu s) _ rest).ret = r ∨
      (halt_cpus_go env t (halt_one t cpu s) _ rest).ret = 0
    rcases hrec with h | h
    · rcases hx with h0 | h0
      · right
        rw [h, h0]
      · left
        rw [h, h0]
    · right
      exact h

theorem halt_cpus_go_fail (env : Env) (t : ℕ) (cpu : ℕ) (l2 : List ℕ)
    (ho : env.online cpu = true) (hf : cpu_drain_rq env cpu < 0) :
    ∀ (l1 : List ℕ) (s : WaltState) (r : ℤ), 0 ≤ r →
      (∀ c ∈ l1, env.online c = true → 0 ≤ cpu_drain_rq env c) →
      cpu ∉ l1 →
      (halt_cpus_go env t s r (l1 ++ cpu :: l2)).ret =
        cpu_drain_rq env cpu ∧
      (∀ c, (halt_cpus_go env t s r (l1 ++ cpu :: l2)).state.cpu_halt_mask c =
        (if c ∈ l1 then true
          else if c = cpu then false else s.cpu_halt_mask c)) ∧
      (∀ c, (halt_cpus_go env t s r (l1 ++ cpu :: l2)).state.halt_state c =
        (if c ∈ l1 ∨ c = cpu then ⟨t, (s.halt_state c).ref_count⟩
          else s.halt_state c)) ∧
      (halt_cpus_go env t s r (l1 ++ cpu :: l2)).drained =
        l1.filter (fun c => env.online c) ++ [cpu] ∧
      (halt_cpus_go env t s r (l1 ++ cpu :: l2)).stopped =
        l1.filter (fun c => env.online c && !env.avail_idle c) ++
          stopTrace env cpu := by
  intro l1
  induction l1 with
  | nil =>
    intro s r hr _ _
    have hb : (if env.online cpu then cpu_drain_rq env cpu else r) < 0 := by
      simpa [ho] using hf
    rw [List.nil_append, halt_cpus_go_cons_break env t s r cpu l2 hb]
    refine ⟨by simp [ho], ?_, ?_, by simp [drainTrace, ho], by simp⟩
    · intro c
      show (unhalt_mask cpu (halt_one t cpu s)).cpu_halt_mask c = _
      simp only [unhalt_mask, halt_one]
      by_cases hc : c = cpu <;> simp [hc]
    · intro c
      show (unhalt_mask cpu (halt_one t cpu s)).halt_state c = _
      simp only [unhalt_mask, halt_one]
      by_cases hc : c = cpu <;> simp [hc]
  | cons d l1' ih =>
    intro s r hr hok hni
    have hdc : d ≠ cpu := fun h => hni (h ▸ List.mem_cons_self d l1')
    have hb : ¬ (if env.online d then cpu_drain_rq env d else r) < 0 := by
      by_cases hod : env.online d = true
      · have := hok d (List.mem_cons_self d l1') hod
        rw [if_pos hod]
        omega
      · rw [if_neg hod]
        omega
    have hsplit : (d :: l1') ++ cpu :: l2 = d :: (l1' ++ cpu :: l2) := rfl
    rw [hsplit, halt_cpus_go_cons_no_break env t s r d _ hb]
    obtain ⟨h1, h2, h3, h4, h5⟩ := ih (halt_one t d s)
      (if env.online d then cpu_drain_rq env d else r)
      (not_lt.mp hb)
      (fun c hc hoc => hok c (List.mem_cons_of_mem _ hc) hoc)
      (fun hc => hni (List.mem_cons_of_mem _ hc))
    refine ⟨h1, ?_, ?_, ?_, ?_⟩
    · intro c
      show (halt_cpus_go env t (halt_one t d s) _
        (l1' ++ cpu :: l2)).state.cpu_halt_mask c = _
      rw [h2 c]
      by_cases h1' : c ∈ l1' <;> by_cases h2' : c = cpu <;>
        by_cases h3' : c = d <;>
        simp [halt_one, List.mem_cons, h1', h2', h3', Ne.symm hdc] <;> tauto
    · intro c
      show (halt_cpus_go env t (halt_one t d s) _
        (l1' ++ cpu :: l2)).state.halt_state c = _
      rw [h3 c]
      by_cases h1' : c ∈ l1' <;> by_cases h2' : c = cpu <;>
        by_cases h3' : c = d <;>
        simp [halt_one, List.mem_cons, h1', h2', h3', Ne.symm hdc]
    · show drainTrace env d ++ (halt_cpus_go env t (halt_one t d s) _
        (l1' ++ cpu :: l2)).drained = _
      rw [h4, List.filter_cons]
      by_cases hod : env.online d <;> simp [drainTrace, hod]
    · show stopTrace env d ++ (halt_cpus_go env t (halt_one t d s) _
        (l1' ++ cpu :: l2)).stopped = _
      rw [h5, List.filter_cons]
      by_cases hod : env.online d <;> by_cases hid : env.avail_idle d <;>
        simp [stopTrace, hod, hid]

theorem walt_halt_cpus_eq_empty (env : Env) (s : WaltState) (cpus : ℕ → Bool)
    (h : cpumask_empty env (update_halt_cpus env s cpus) = true) :
    walt_halt_cpus env s cpus =
      ⟨(update_ref_counts env s cpus true).1, 0,
        update_halt_cpus env s cpus, [], []⟩ := by
  simp only [walt_halt_cpus, h, reduceIte]

theorem walt_halt_cpus_eq_fail (env : Env) (s : WaltState) (cpus : ℕ → Bool)
    (hne : ¬ cpumask_empty env (update_halt_cpus env s cpus) = true)
    (hf : (halt_cpus env s (update_halt_cpus env s cpus)).ret < 0) :
    walt_halt_cpus env s cpus =
      ⟨(halt_cpus env s (update_halt_cpus env s cpus)).state,
        (halt_cpus env s (update_halt_cpus env s cpus)).ret,
        update_halt_cpus env s cpus,
        (halt_cpus env s (update_halt_cpus env s cpus)).drained,
        (halt_cpus env s (update_halt_cpus env s cpus)).stopped⟩ := by
  simp only [walt_halt_cpus, hne, hf, Bool.false_eq_true, reduceIte]

theorem walt_halt_cpus_eq_succ (env : Env) (s : WaltState) (cpus : ℕ → Bool)
    (hne : ¬ cpumask_empty env (update_halt_cpus env s cpus) = true)
    (hs : ¬ (halt_cpus env s (update_halt_cpus env s cpus)).ret < 0) :
    walt_halt_cpus env s cpus =
      ⟨(update_ref_counts env
          (halt_cpus env s (update_halt_cpus env s cpus)).state cpus true).1,
        (halt_cpus env s (update_halt_cpus env s cpus)).ret,
        update_halt_cpus env s cpus,
        (halt_cpus env s (update_halt_cpus env s cpus)).drained,
        (halt_cpus env s (update_halt_cpus env s cpus)).stopped⟩ := by
  simp only [walt_halt_cpus, hne, hs, Bool.false_eq_true, reduceIte]

theorem update_ref_counts_mask (env : Env) (s : WaltState) (cpus : ℕ → Bool)
    (halt : Bool) :
    (update_ref_counts env s cpus halt).1.cpu_halt_mask = s.cpu_halt_mask :=
  rfl

theorem update_ref_counts_lh (env : Env) (s : WaltState) (cpus : ℕ → Bool)
    (halt : Bool) (c : ℕ) :
    ((update_ref_counts env s cpus halt).1.halt_state c).last_halt =
      (s.halt_state c).last_halt := by
  simp only [update_ref_counts]
  split_ifs <;> rfl

theorem update_ref_counts_ref (env : Env) (s : WaltState) (cpus : ℕ → Bool)
    (halt : Bool) (c : ℕ) :
    ((update_ref_counts env s cpus halt).1.halt_state c).ref_count =
      (if cpus c = true ∧ c < env.nr_cpus then
        (if halt = true then (s.halt_state c).ref_count + 1
          else (s.halt_state c).ref_count - 1)
        else (s.halt_state c).ref_count) := by
  simp only [update_ref_counts]
  split_ifs <;> rfl

theorem walt_halt_cpus_succ_spec (env : Env) (s : WaltState) (cpus : ℕ → Bool)
    (h : 0 ≤ (walt_halt_cpus env s cpus).ret) :
    (∀ c, ((walt_halt_cpus env s cpus).state.halt_state c).ref_count =
        (if cpus c = true ∧ c < env.nr_cpus then
          (s.halt_state c).ref_count + 1 else (s.halt_state c).ref_count)) ∧
    (∀ c, (walt_halt_cpus env s cpus).state.cpu_halt_mask c =
        (if c < env.nr_cpus ∧ cpus c = true ∧
            (s.halt_state c).ref_count = 0 then true
          else s.cpu_halt_mask c)) ∧
    (∀ c, ((walt_halt_cpus env s cpus).state.halt_state c).last_halt =
        (if c < env.nr_cpus ∧ cpus c = true ∧
            (s.halt_state c).ref_count = 0 then env.now
          else (s.halt_state c).last_halt)) ∧
    (walt_halt_cpus env s cpus).drained =
      (cpuList env (update_halt_cpus env s cpus)).filter
        (fun c => env.online c) ∧
    (walt_halt_cpus env s cpus).stopped =
      (cpuList env (update_halt_cpus env s cpus)).filter
        (fun c => env.online c && !env.avail_idle c) ∧
    (walt_halt_cpus env s cpus).cpus = update_halt_cpus env s cpus := by
  by_cases hemp : cpumask_empty env (update_halt_cpus env s cpus) = true
  · have hnone : ∀ c, ¬ (c < env.nr_cpus ∧ cpus c = true ∧
        (s.halt_state c).ref_count = 0) := by
      intro c hc
      have hmem : c ∈ cpuList env (update_halt_cpus env s cpus) :=
        (mem_actionList env s cpus c).mpr hc
      rw [cpumask_empty, List.isEmpty_iff] at hemp
      simp [hemp] at hmem
    have hnil : cpuList env (update_halt_cpus env s cpus) = [] := by
      rw [cpumask_empty, List.isEmpty_iff] at hemp
      exact hemp
    rw [walt_halt_cpus_eq_empty env s cpus hemp]
    refine ⟨?_, ?_, ?_, by simp [hnil], by simp [hnil], rfl⟩
    · intro c
      show ((update_ref_counts env s cpus true).1.halt_state c).ref_count = _
      simp only [update_ref_counts]
      by_cases hc : cpus c = true ∧ c < env.nr_cpus <;> simp [hc]
    · intro c
      show (update_ref_counts env s cpus true).1.cpu_halt_mask c = _
      simp only [update_ref_counts]
      rw [if_neg (hnone c)]
    · intro c
      show ((update_ref_counts env s cpus true).1.halt_state c).last_halt = _
      simp only [update_ref_counts]
      rw [if_neg (hnone c)]
      by_cases hc : cpus c = true ∧ c < env.nr_cpus <;> simp [hc]
  · by_cases hf : (halt_cpus env s (update_halt_cpus env s cpus)).ret < 0
    · exfalso
      rw [walt_halt_cpus_eq_fail env s cpus hemp hf] at h
      have h' : 0 ≤ (halt_cpus env s (update_halt_cpus env s cpus)).ret := h
      omega
    · obtain ⟨hm, hs', hd, hst⟩ := halt_cpus_go_succ env env.now
        (cpuList env (update_halt_cpus env s cpus)) s 0 (not_lt.mp hf)
      rw [walt_halt_cpus_eq_succ env s cpus hemp hf]
      refine ⟨?_, ?_, ?_, hd, hst, rfl⟩
      · intro c
        show ((update_ref_counts env
            (halt_cpus env s (update_halt_cpus env s cpus)).state cpus
            true).1.halt_state c).ref_count = _
        have hrc : ((halt_cpus env s
            (update_halt_cpus env s cpus)).state.halt_state c).ref_count =
            (s.halt_state c).ref_count :=
          halt_cpus_go_ref_unchanged env env.now
            (cpuList env (update_halt_cpus env s cpus)) s 0 c
        rw [update_ref_counts_ref, hrc]
        rfl
      · intro c
        show (update_ref_counts env
            (halt_cpus env s (update_halt_cpus env s cpus)).state cpus
            true).1.cpu_halt_mask c = _
        have hmask : (halt_cpus env s
            (update_halt_cpus env s cpus)).state.cpu_halt_mask c =
            (if c ∈ cpuList env (update_halt_cpus env s cpus) then true
              else s.cpu_halt_mask c) := hm c
        simp only [update_ref_counts]
        rw [hmask]
        by_cases hcl : c ∈ cpuList env (update_halt_cpus env s cpus)
        · rw [if_pos hcl, if_pos ((mem_actionList env s cpus c).mp hcl)]
        · rw [if_neg hcl, if_neg (fun hc =>
            hcl ((mem_actionList env s cpus c).mpr hc))]
      · intro c
        show ((update_ref_counts env
            (halt_cpus env s (update_halt_cpus env s cpus)).state cpus
            true).1.halt_state c).last_halt = _
        have hstate : (halt_cpus env s
            (update_halt_cpus env s cpus)).state.halt_state c =
            (if c ∈ cpuList env (update_halt_cpus env s cpus) then
              ⟨env.now, (s.halt_state c).ref_count⟩
              else s.halt_state c) := hs' c
        have hlh : ((halt_cpus env s
            (update_halt_cpus env s cpus)).state.halt_state c).last_halt =
            (if c ∈ cpuList env (update_halt_cpus env s cpus) then env.now
              else (s.halt_state c).last_halt) := by
          rw [hstate]
          by_cases hcl : c ∈ cpuList env (update_halt_cpus env s cpus) <;>
            simp [hcl]
        rw [update_ref_counts_lh, hlh]
        by_cases hcl : c ∈ cpuList env (update_halt_cpus env s cpus)
        · rw [if_pos hcl, if_pos ((mem_actionList env s cpus c).mp hcl)]
        · rw [if_neg hcl, if_neg (fun hx =>
            hcl ((mem_actionList env s cpus c).mpr hx))]

theorem walt_halt_cpus_ret_zero (env : Env) (s : WaltState) (cpus : ℕ → Bool)
    (hdr : ∀ c, c < env.nr_cpus → cpus c = true →
      (s.halt_state c).ref_count = 0 → env.online c = true →
      cpu_drain_rq env c = 0) :
    (walt_halt_cpus env s cpus).ret = 0 := by
  by_cases hemp : cpumask_empty env (update_halt_cpus env s cpus) = true
  · rw [walt_halt_cpus_eq_empty env s cpus hemp]
  · have hok : ∀ c ∈ cpuList env (update_halt_cpus env s cpus),
        env.online c = true → cpu_drain_rq env c = 0 := by
      intro c hc hoc
      obtain ⟨h1, h2, h3⟩ := (mem_actionList env s cpus c).mp hc
      exact hdr c h1 h2 h3 hoc
    have hr := halt_cpus_go_ret_ok env env.now
      (cpuList env (update_halt_cpus env s cpus)) s 0 le_rfl hok
    have hret : (halt_cpus env s (update_halt_cpus env s cpus)).ret = 0 := by
      rcases hr with h | h <;> exact h
    rw [walt_halt_cpus_eq_succ env s cpus hemp (by rw [hret]; omega)]
    exact hret

theorem walt_start_cpus_eq (env : Env) (s : WaltState) (cpus : ℕ → Bool) :
    walt_start_cpus env s cpus =
      ⟨(start_cpus env (update_ref_counts env s cpus false).1
          (update_halt_cpus env (update_ref_counts env s cpus false).1
            cpus)).1,
        0, update_halt_cpus env (update_ref_counts env s cpus false).1 cpus,
        (update_ref_counts env s cpus false).2⟩ := by
  simp only [walt_start_cpus, start_cpus, reduceIte]
  norm_num

theorem walt_start_cpus_spec (env : Env) (s : WaltState) (cpus : ℕ → Bool) :
    (walt_start_cpus env s cpus).ret = 0 ∧
    (∀ c, ((walt_start_cpus env s cpus).state.halt_state c).ref_count =
        (if cpus c = true ∧ c < env.nr_cpus then
          (s.halt_state c).ref_count - 1 else (s.halt_state c).ref_count)) ∧
    (∀ c, (walt_start_cpus env s cpus).state.cpu_halt_mask c =
        (if cpus c = true ∧ c < env.nr_cpus ∧
            (s.halt_state c).ref_count = 1 then false
          else s.cpu_halt_mask c)) ∧
    (∀ c, ((walt_start_cpus env s cpus).state.halt_state c).last_halt =
        (if cpus c = true ∧ c < env.nr_cpus ∧
            (s.halt_state c).ref_count = 1 then 0
          else (s.halt_state c).last_halt)) ∧
    (walt_start_cpus env s cpus).warns =
      (cpuList env cpus).filter
        (fun c => (s.halt_state c).ref_count == 0) := by
  have hu1r : ∀ c, (((update_ref_counts env s cpus false).1.halt_state
      c)).ref_count =
      (if cpus c = true ∧ c < env.nr_cpus then
        (s.halt_state c).ref_count - 1 else (s.halt_state c).ref_count) := by
    intro c
    rw [update_ref_counts_ref]
    rfl
  rw [walt_start_cpus_eq]
  refine ⟨rfl, ?_, ?_, ?_, rfl⟩
  · intro c
    have hsc : (((start_cpus env (update_ref_counts env s cpus false).1
        (update_halt_cpus env (update_ref_counts env s cpus false).1
          cpus)).1.halt_state c)).ref_count =
        (((update_ref_counts env s cpus false).1.halt_state
          c)).ref_count := by
      simp only [start_cpus]
      split_ifs <;> rfl
    rw [hsc, hu1r]
  · intro c
    show (if (update_halt_cpus env (update_ref_counts env s cpus false).1
        cpus) c = true ∧ c < env.nr_cpus then false
      else (update_ref_counts env s cpus false).1.cpu_halt_mask c) = _
    rw [update_ref_counts_mask]
    have hu := hu1r c
    simp only [update_halt_cpus] at hu ⊢
    split_ifs at hu ⊢ <;> simp_all <;> omega
  · intro c
    have hsl : (((start_cpus env (update_ref_counts env s cpus false).1
        (update_halt_cpus env (update_ref_counts env s cpus false).1
          cpus)).1.halt_state c)).last_halt =
        (if (update_halt_cpus env (update_ref_counts env s cpus false).1
            cpus) c = true ∧ c < env.nr_cpus then 0
          else ((update_ref_counts env s cpus false).1.halt_state
            c).last_halt) := by
      simp only [start_cpus]
      split_ifs <;> rfl
    rw [hsl, update_ref_counts_lh]
    have hu := hu1r c
    simp only [update_halt_cpus] at hu ⊢
    split_ifs at hu ⊢ <;> simp_all <;> omega

theorem walt_halt_cpus_fail_spec (env : Env) (s : WaltState)
    (cpus : ℕ → Bool) (l1 l2 : List ℕ) (cpu : ℕ)
    (hsplit : cpuList env (update_halt_cpus env s cpus) = l1 ++ cpu :: l2)
    (hok : ∀ c ∈ l1, env.online c = true → 0 ≤ cpu_drain_rq env c)
    (ho : env.online cpu = true)
    (hf : cpu_drain_rq env cpu < 0)
    (hni : cpu ∉ l1) :
    (walt_halt_cpus env s cpus).ret = cpu_drain_rq env cpu ∧
    (∀ c, (walt_halt_cpus env s cpus).state.cpu_halt_mask c =
        (if c ∈ l1 then true
          else if c = cpu then false else s.cpu_halt_mask c)) ∧
    (∀ c, ((walt_halt_cpus env s cpus).state.halt_state c).ref_count =
        (s.halt_state c).ref_count) ∧
    (∀ c, ((walt_halt_cpus env s cpus).state.halt_state c).last_halt =
        (if c ∈ l1 ∨ c = cpu then env.now
          else (s.halt_state c).last_halt)) ∧
    (walt_halt_cpus env s cpus).drained =
      l1.filter (fun c => env.online c) ++ [cpu] := by
  have hne : ¬ cpumask_empty env (update_halt_cpus env s cpus) = true := by
    rw [cpumask_empty, List.isEmpty_iff, hsplit]
    simp
  obtain ⟨g1, g2, g3, g4, g5⟩ :=
    halt_cpus_go_fail env env.now cpu l2 ho hf l1 s 0 le_rfl hok hni
  have hhc : halt_cpus env s (update_halt_cpus env s cpus) =
      halt_cpus_go env env.now s 0 (l1 ++ cpu :: l2) := by
    rw [halt_cpus, hsplit]
  have hret : (halt_cpus env s (update_halt_cpus env s cpus)).ret =
      cpu_drain_rq env cpu := by
    rw [hhc]
    exact g1
  have hlt : (halt_cpus env s (update_halt_cpus env s cpus)).ret < 0 := by
    rw [hret]
    exact hf
  rw [walt_halt_cpus_eq_fail env s cpus hne hlt]
  refine ⟨hret, ?_, ?_, ?_, ?_⟩
  · intro c
    show (halt_cpus env s
      (update_halt_cpus env s cpus)).state.cpu_halt_mask c = _
    rw [hhc]
    exact g2 c
  · intro c
    show ((halt_cpus env s
      (update_halt_cpus env s cpus)).state.halt_state c).ref_count = _
    rw [hhc]
    exact halt_cpus_go_ref_unchanged env env.now (l1 ++ cpu :: l2) s 0 c
  · intro c
    show ((halt_cpus env s
      (update_halt_cpus env s cpus)).state.halt_state c).last_halt = _
    rw [hhc, g3 c]
    by_cases hcc : c ∈ l1 ∨ c = cpu <;> simp [hcc]
  · show (halt_cpus env s (update_halt_cpus env s cpus)).drained = _
    rw [hhc]
    exact g4

/-- C3, counterexample: starting from the all-zero state (which satisfies
the mask/ref-count equivalence), a single `walt_halt_cpus {0,1}` call in
which cpu 0 drains fine and cpu 1's drain fails leaves cpu 0's halt-mask
bit set with its ref count still 0 — so the claimed equivalence is not
preserved by calls whose drain fails part-way. -/
theorem c3_counterexample :
    haltMaskConsistent envC6 state0 ∧
    ¬ haltMaskConsistent envC6
      (walt_halt_cpus envC6 state0 bothCpus).state := by
  constructor
  · decide
  · decide

/-- C3, amended: outside coordinator calls, the cpu-in-mask iff
ref-count-positive equivalence is preserved by every `walt_start_cpus`
call and by every `walt_halt_cpus` call that does not fail; a
`walt_halt_cpus` call whose drain fails part-way leaves the cpus already
drained in that call in the mask with ref count 0, breaking the
equivalence (see the counterexample). -/
theorem c3_invariant_preserved (env : Env) (s : WaltState) (cpus : ℕ → Bool)
    (hinv : haltMaskConsistent env s) :
    haltMaskConsistent env (walt_start_cpus env s cpus).state ∧
    (0 ≤ (walt_halt_cpus env s cpus).ret →
      haltMaskConsistent env (walt_halt_cpus env s cpus).state) := by
  constructor
  · obtain ⟨_, href, hmask, _, _⟩ := walt_start_cpus_spec env s cpus
    intro c hc
    rw [hmask c, href c]
    by_cases hm : cpus c = true
    · by_cases h1 : (s.halt_state c).ref_count = 1
      · rw [if_pos ⟨hm, hc, h1⟩, if_pos ⟨hm, hc⟩]
        simp [h1]
      · rw [if_neg (by tauto), if_pos ⟨hm, hc⟩]
        constructor
        · intro hmv
          have h0 := (hinv c hc).mp hmv
          omega
        · intro hlt
          apply (hinv c hc).mpr
          omega
    · rw [if_neg (by tauto), if_neg (by tauto)]
      exact hinv c hc
  · intro hret
    obtain ⟨href, hmask, _, _, _, _⟩ :=
      walt_halt_cpus_succ_spec env s cpus hret
    intro c hc
    rw [hmask c, href c]
    by_cases hm : cpus c = true
    · by_cases h0 : (s.halt_state c).ref_count = 0
      · rw [if_pos ⟨hc, hm, h0⟩, if_pos ⟨hm, hc⟩]
        simp [h0]
      · rw [if_neg (by tauto), if_pos ⟨hm, hc⟩]
        constructor
        · intro hmv
          have := (hinv c hc).mp hmv
          omega
        · intro hlt
          apply (hinv c hc).mpr
          omega
    · rw [if_neg (by tauto), if_neg (by tauto)]
      exact hinv c hc

/-- C3, witness for the amended theorem at a concrete input. -/
theorem c3_invariant_preserved_witness :
    haltMaskConsistent env2 (walt_start_cpus env2 state0 (oneCpu 0)).state ∧
    (0 ≤ (walt_halt_cpus env2 state0 (oneCpu 0)).ret →
      haltMaskConsistent env2
        (walt_halt_cpus env2 state0 (oneCpu 0)).state) :=
  c3_invariant_preserved env2 state0 (oneCpu 0) (by decide)

/-- C10: resume can never report failure: `start_cpus` returns 0
unconditionally, `walt_start_cpus` therefore always returns 0, and the
error-recovery branch that would re-increment the ref counts never runs —
every requested cpu's ref count is decremented exactly once. -/
theorem c10_resume_never_fails (env : Env) (s : WaltState)
    (cpus : ℕ → Bool) :
    (walt_start_cpus env s cpus).ret = 0 ∧
    (start_cpus env s cpus).2 = 0 ∧
    (∀ c, ((walt_start_cpus env s cpus).state.halt_state c).ref_count =
      (if cpus c = true ∧ c < env.nr_cpus then
        (s.halt_state c).ref_count - 1 else (s.halt_state c).ref_count)) := by
  obtain ⟨h1, h2, _, _, _⟩ := walt_start_cpus_spec env s cpus
  exact ⟨h1, rfl, h2⟩

/-- C9: an available-idle cpu is drained without ever reaching the
stop-one-cpu primitive: `cpu_drain_rq` returns 0 immediately, the cpu never
appears in the stop trace of any `walt_halt_cpus` call, and a successful
halt still sets its mask bit. -/
theorem c9_idle_no_stop (env : Env) (s : WaltState) (cpus : ℕ → Bool)
    (c : ℕ) (hidle : env.avail_idle c = true) :
    cpu_drain_rq env c = 0 ∧
    c ∉ (walt_halt_cpus env s cpus).stopped ∧
    ((walt_halt_cpus env s cpus).ret = 0 → c < env.nr_cpus →
      cpus c = true → (s.halt_state c).ref_count = 0 →
      (walt_halt_cpus env s cpus).state.cpu_halt_mask c = true) := by
  refine ⟨by simp [cpu_drain_rq, hidle], ?_, ?_⟩
  · intro hmem
    by_cases hemp : cpumask_empty env (update_halt_cpus env s cpus) = true
    · rw [walt_halt_cpus_eq_empty env s cpus hemp] at hmem
      simp at hmem
    · by_cases hfail :
          (halt_cpus env s (update_halt_cpus env s cpus)).ret < 0
      · rw [walt_halt_cpus_eq_fail env s cpus hemp hfail] at hmem
        have hmem' : c ∈ (halt_cpus env s
            (update_halt_cpus env s cpus)).stopped := hmem
        obtain ⟨_, hfalse⟩ := halt_cpus_go_stopped_mem env env.now
          (cpuList env (update_halt_cpus env s cpus)) s 0 c hmem'
        rw [hidle] at hfalse
        exact absurd hfalse (by simp)
      · rw [walt_halt_cpus_eq_succ env s cpus hemp hfail] at hmem
        have hmem' : c ∈ (halt_cpus env s
            (update_halt_cpus env s cpus)).stopped := hmem
        obtain ⟨_, hfalse⟩ := halt_cpus_go_stopped_mem env env.now
          (cpuList env (update_halt_cpus env s cpus)) s 0 c hmem'
        rw [hidle] at hfalse
        exact absurd hfalse (by simp)
  · intro hret hc hm hz
    obtain ⟨_, hmask, _, _, _, _⟩ := walt_halt_cpus_succ_spec env s cpus
      (by rw [hret])
    rw [hmask c, if_pos ⟨hc, hm, hz⟩]

/-- C9, witness at a concrete input: one online available-idle cpu whose
stop primitive would fail if it were ever invoked. -/
theorem c9_idle_no_stop_witness :
    cpu_drain_rq envIdle 0 = 0 ∧
    0 ∉ (walt_halt_cpus envIdle state0 (oneCpu 0)).stopped ∧
    ((walt_halt_cpus envIdle state0 (oneCpu 0)).ret = 0 →
      0 < envIdle.nr_cpus → oneCpu 0 0 = true →
      (state0.halt_state 0).ref_count = 0 →
      (walt_halt_cpus envIdle state0
        (oneCpu 0)).state.cpu_halt_mask 0 = true) :=
  c9_idle_no_stop envIdle state0 (oneCpu 0) 0 (by decide)

/-- C5: behavior of a successful `walt_halt_cpus` call on a state with
nonnegative ref counts: the request mask is first narrowed by dropping
every cpu with a positive ref count; exactly the remaining cpus get their
halt-mask bit set and `last_halt = now` (skipped cpus keep both
unchanged); the drain engine runs exactly for the online remaining cpus
(never for offline ones, whose mask bit and ref count are still updated);
and the ref count of every cpu of the original request, including the
skipped ones, is incremented. -/
theorem c5_halt_success (env : Env) (s : WaltState) (cpus : ℕ → Bool)
    (hnn : ∀ c, 0 ≤ (s.halt_state c).ref_count)
    (hret : (walt_halt_cpus env s cpus).ret = 0) :
    (∀ c, c < env.nr_cpus →
      ((walt_halt_cpus env s cpus).cpus c = true ↔
        (cpus c = true ∧ ¬ 0 < (s.halt_state c).ref_count))) ∧
    (∀ c, c < env.nr_cpus → cpus c = true →
      0 < (s.halt_state c).ref_count →
      (walt_halt_cpus env s cpus).state.cpu_halt_mask c =
        s.cpu_halt_mask c ∧
      ((walt_halt_cpus env s cpus).state.halt_state c).last_halt =
        (s.halt_state c).last_halt) ∧
    (∀ c, c < env.nr_cpus → cpus c = true →
      (s.halt_state c).ref_count = 0 →
      (walt_halt_cpus env s cpus).state.cpu_halt_mask c = true ∧
      ((walt_halt_cpus env s cpus).state.halt_state c).last_halt =
        env.now) ∧
    (∀ c, c ∈ (walt_halt_cpus env s cpus).drained ↔
      (c < env.nr_cpus ∧ cpus c = true ∧
        (s.halt_state c).ref_count = 0 ∧ env.online c = true)) ∧
    (∀ c, ((walt_halt_cpus env s cpus).state.halt_state c).ref_count =
      (if cpus c = true ∧ c < env.nr_cpus then
        (s.halt_state c).ref_count + 1
        else (s.halt_state c).ref_count)) := by
  have h0 : 0 ≤ (walt_halt_cpus env s cpus).ret := by rw [hret]
  obtain ⟨href, hmask, hlh, hdr, _, hcp⟩ :=
    walt_halt_cpus_succ_spec env s cpus h0
  refine ⟨?_, ?_, ?_, ?_, href⟩
  · intro c hc
    rw [hcp]
    unfold update_halt_cpus
    have hn := hnn c
    constructor
    · intro hv
      by_cases hz : (s.halt_state c).ref_count ≠ 0
      · rw [if_pos ⟨hc, hz⟩] at hv
        exact absurd hv (by simp)
      · push_neg at hz
        rw [if_neg (by tauto)] at hv
        exact ⟨hv, by omega⟩
    · rintro ⟨hcv, hpos⟩
      have hz : (s.halt_state c).ref_count = 0 := by omega
      rw [if_neg (fun h => h.2 hz), hcv]
  · intro c hc hm hpos
    have hncond : ¬ (c < env.nr_cpus ∧ cpus c = true ∧
        (s.halt_state c).ref_count = 0) := by
      intro h
      have := h.2.2
      omega
    exact ⟨by rw [hmask c, if_neg hncond],
      by rw [hlh c, if_neg hncond]⟩
  · intro c hc hm hz
    exact ⟨by rw [hmask c, if_pos ⟨hc, hm, hz⟩],
      by rw [hlh c, if_pos ⟨hc, hm, hz⟩]⟩
  · intro c
    rw [hdr, List.mem_filter, mem_actionList]
    constructor
    · rintro ⟨⟨h1, h2, h3⟩, h4⟩
      exact ⟨h1, h2, h3, h4⟩
    · rintro ⟨h1, h2, h3, h4⟩
      exact ⟨⟨h1, h2, h3⟩, h4⟩

/-- C5, witness at a concrete input: halting cpu 0 of two online cpus from
the all-zero state. -/
theorem c5_halt_success_witness :
    (∀ c, c < env2.nr_cpus →
      ((walt_halt_cpus env2 state0 (oneCpu 0)).cpus c = true ↔
        (oneCpu 0 c = true ∧
          ¬ 0 < (state0.halt_state c).ref_count))) ∧
    (∀ c, c < env2.nr_cpus → oneCpu 0 c = true →
      0 < (state0.halt_state c).ref_count →
      (walt_halt_cpus env2 state0 (oneCpu 0)).state.cpu_halt_mask c =
        state0.cpu_halt_mask c ∧
      ((walt_halt_cpus env2 state0
        (oneCpu 0)).state.halt_state c).last_halt =
        (state0.halt_state c).last_halt) ∧
    (∀ c, c < env2.nr_cpus → oneCpu 0 c = true →
      (state0.halt_state c).ref_count = 0 →
      (walt_halt_cpus env2 state0 (oneCpu 0)).state.cpu_halt_mask c =
        true ∧
      ((walt_halt_cpus env2 state0
        (oneCpu 0)).state.halt_state c).last_halt = env2.now) ∧
    (∀ c, c ∈ (walt_halt_cpus env2 state0 (oneCpu 0)).drained ↔
      (c < env2.nr_cpus ∧ oneCpu 0 c = true ∧
        (state0.halt_state c).ref_count = 0 ∧ env2.online c = true)) ∧
    (∀ c, ((walt_halt_cpus env2 state0
        (oneCpu 0)).state.halt_state c).ref_count =
      (if oneCpu 0 c = true ∧ c < env2.nr_cpus then
        (state0.halt_state c).ref_count + 1
        else (state0.halt_state c).ref_count)) :=
  c5_halt_success env2 state0 (oneCpu 0) (fun _ => le_refl 0) (by decide)

/-- C6: when the drain of some cpu in the narrowed request fails, the
error is returned, that cpu's halt-mask bit is cleared, the cpus drained
earlier in the same call keep their mask bits (no rollback), the loop
aborts so the later cpus are untouched (drain runs for nothing after the
failing cpu), and no ref count is updated by the failed call. -/
theorem c6_drain_failure_behavior (env : Env) (s : WaltState)
    (cpus : ℕ → Bool) (l1 l2 : List ℕ) (cpu : ℕ)
    (hsplit : cpuList env (update_halt_cpus env s cpus) = l1 ++ cpu :: l2)
    (hok : ∀ c ∈ l1, env.online c = true → 0 ≤ cpu_drain_rq env c)
    (ho : env.online cpu = true) (hf : cpu_drain_rq env cpu < 0) :
    (walt_halt_cpus env s cpus).ret = cpu_drain_rq env cpu ∧
    (walt_halt_cpus env s cpus).ret < 0 ∧
    (walt_halt_cpus env s cpus).state.cpu_halt_mask cpu = false ∧
    (∀ c ∈ l1,
      (walt_halt_cpus env s cpus).state.cpu_halt_mask c = true) ∧
    (∀ c ∈ l2,
      (walt_halt_cpus env s cpus).state.cpu_halt_mask c =
        s.cpu_halt_mask c ∧
      ((walt_halt_cpus env s cpus).state.halt_state c).last_halt =
        (s.halt_state c).last_halt) ∧
    (walt_halt_cpus env s cpus).drained =
      l1.filter (fun c => env.online c) ++ [cpu] ∧
    (∀ c, ((walt_halt_cpus env s cpus).state.halt_state c).ref_count =
      (s.halt_state c).ref_count) := by
  have hnd : (l1 ++ cpu :: l2).Nodup := by
    rw [← hsplit]
    exact List.Nodup.filter _ (List.nodup_range env.nr_cpus)
  rw [List.nodup_append] at hnd
  obtain ⟨_, hnd2, hdisj⟩ := hnd
  have hni : cpu ∉ l1 := fun h => hdisj h (List.mem_cons_self cpu l2)
  have hl2 : ∀ c ∈ l2, c ∉ l1 ∧ c ≠ cpu := by
    intro c hc
    refine ⟨fun hc1 => hdisj hc1 (List.mem_cons_of_mem _ hc), ?_⟩
    intro hceq
    subst hceq
    exact (List.nodup_cons.mp hnd2).1 hc
  obtain ⟨g1, g2, g3, g4, g5⟩ :=
    walt_halt_cpus_fail_spec env s cpus l1 l2 cpu hsplit hok ho hf hni
  refine ⟨g1, by rw [g1]; exact hf, ?_, ?_, ?_, g5, g3⟩
  · rw [g2 cpu, if_neg hni, if_pos rfl]
  · intro c hc
    rw [g2 c, if_pos hc]
  · intro c hc
    obtain ⟨hn1, hn2⟩ := hl2 c hc
    exact ⟨by rw [g2 c, if_neg hn1, if_neg hn2],
      by rw [g4 c, if_neg (fun h => h.elim hn1 hn2)]⟩

/-- C6, witness at a concrete input: halting `{0, 1}` where cpu 0 drains
fine and cpu 1's drain fails with -22. -/
theorem c6_drain_failure_behavior_witness :
    (walt_halt_cpus envC6 state0 bothCpus).ret = cpu_drain_rq envC6 1 ∧
    (walt_halt_cpus envC6 state0 bothCpus).ret < 0 ∧
    (walt_halt_cpus envC6 state0 bothCpus).state.cpu_halt_mask 1 =
      false ∧
    (∀ c ∈ [0],
      (walt_halt_cpus envC6 state0 bothCpus).state.cpu_halt_mask c =
        true) ∧
    (∀ c ∈ ([] : List ℕ),
      (walt_halt_cpus envC6 state0 bothCpus).state.cpu_halt_mask c =
        state0.cpu_halt_mask c ∧
      ((walt_halt_cpus envC6 state0
        bothCpus).state.halt_state c).last_halt =
        (state0.halt_state c).last_halt) ∧
    (walt_halt_cpus envC6 state0 bothCpus).drained =
      [0].filter (fun c => envC6.online c) ++ [1] ∧
    (∀ c, ((walt_halt_cpus envC6 state0
        bothCpus).state.halt_state c).ref_count =
      (state0.halt_state c).ref_count) :=
  c6_drain_failure_behavior envC6 state0 bothCpus [0] [] 1 (by decide)
    (by decide) (by decide) (by decide)

/-- C7, counterexample: `walt_start_cpus` on a cpu whose ref count is zero
fires the warning and returns success, but still performs the decrement,
driving the ref count to -1 — the count does go below zero. -/
theorem c7_counterexample :
    ((walt_start_cpus env2 state0 (oneCpu 0)).state.halt_state
      0).ref_count = -1 ∧
    (walt_start_cpus env2 state0 (oneCpu 0)).warns = [0] ∧
    (walt_start_cpus env2 state0 (oneCpu 0)).ret = 0 := by
  decide

/-- C7, amended: per coordinator call each cpu's ref count changes by at
most one (halt: +1 or 0, resume: -1 or 0, in both build variants); a
resume of a cpu whose ref count is already zero fires the logged warning,
is not propagated as an error (the call still returns 0) and excludes the
cpu from the actual un-halt action — but the decrement still happens, so
the count reaches -1 rather than stopping at zero. -/
theorem c7_refcount_steps (env : Env) (penv : PauseEnv) (s : WaltState)
    (pref : ℕ → ℤ) (cpus : ℕ → Bool) :
    (∀ c, ((walt_halt_cpus env s cpus).state.halt_state c).ref_count -
        (s.halt_state c).ref_count = 0 ∨
      ((walt_halt_cpus env s cpus).state.halt_state c).ref_count -
        (s.halt_state c).ref_count = 1) ∧
    (∀ c, ((walt_start_cpus env s cpus).state.halt_state c).ref_count -
        (s.halt_state c).ref_count = 0 ∨
      ((walt_start_cpus env s cpus).state.halt_state c).ref_count -
        (s.halt_state c).ref_count = -1) ∧
    (∀ c, c < env.nr_cpus → cpus c = true →
      (s.halt_state c).ref_count = 0 →
      c ∈ (walt_start_cpus env s cpus).warns ∧
      (walt_start_cpus env s cpus).ret = 0 ∧
      ((walt_start_cpus env s cpus).state.halt_state c).ref_count = -1 ∧
      (walt_start_cpus env s cpus).cpus c = false) ∧
    (∀ c, (dec_test_ref_counts penv pref cpus).ref c - pref c = 0 ∨
      (dec_test_ref_counts penv pref cpus).ref c - pref c = -1) ∧
    (∀ c, c < penv.nr_cpus → cpus c = true → pref c = 0 →
      c ∈ (dec_test_ref_counts penv pref cpus).warns ∧
      (dec_test_ref_counts penv pref cpus).ref c = -1) := by
  obtain ⟨hret, href, _, _, hwarns⟩ := walt_start_cpus_spec env s cpus
  refine ⟨?_, ?_, ?_, ?_, ?_⟩
  · intro c
    by_cases hemp : cpumask_empty env (update_halt_cpus env s cpus) = true
    · rw [walt_halt_cpus_eq_empty env s cpus hemp]
      have hup : ((update_ref_counts env s cpus true).1.halt_state
          c).ref_count =
          (if cpus c = true ∧ c < env.nr_cpus then
            (s.halt_state c).ref_count + 1
            else (s.halt_state c).ref_count) := by
        rw [update_ref_counts_ref]
        rfl
      show ((update_ref_counts env s cpus true).1.halt_state
          c).ref_count - _ = 0 ∨
        ((update_ref_counts env s cpus true).1.halt_state
          c).ref_count - _ = 1
      rw [hup]
      split_ifs <;> omega
    · have hrc : ((halt_cpus env s
          (update_halt_cpus env s cpus)).state.halt_state c).ref_count =
          (s.halt_state c).ref_count :=
        halt_cpus_go_ref_unchanged env env.now
          (cpuList env (update_halt_cpus env s cpus)) s 0 c
      by_cases hfail :
          (halt_cpus env s (update_halt_cpus env s cpus)).ret < 0
      · rw [walt_halt_cpus_eq_fail env s cpus hemp hfail]
        left
        show ((halt_cpus env s
            (update_halt_cpus env s cpus)).state.halt_state
          c).ref_count - _ = 0
        rw [hrc]
        omega
      · rw [walt_halt_cpus_eq_succ env s cpus hemp hfail]
        have hup : ((update_ref_counts env (halt_cpus env s
            (update_halt_cpus env s cpus)).state cpus
            true).1.halt_state c).ref_count =
            (if cpus c = true ∧ c < env.nr_cpus then
              (s.halt_state c).ref_count + 1
              else (s.halt_state c).ref_count) := by
          rw [update_ref_counts_ref, hrc]
          rfl
        show ((update_ref_counts env (halt_cpus env s
            (update_halt_cpus env s cpus)).state cpus
            true).1.halt_state c).ref_count - _ = 0 ∨
          ((update_ref_counts env (halt_cpus env s
            (update_halt_cpus env s cpus)).state cpus
            true).1.halt_state c).ref_count - _ = 1
        rw [hup]
        split_ifs <;> omega
  · intro c
    rw [href c]
    split_ifs <;> omega
  · intro c hc hm hz
    refine ⟨?_, hret, ?_, ?_⟩
    · rw [hwarns, List.mem_filter]
      exact ⟨(mem_cpuList env cpus c).mpr ⟨hc, hm⟩, by simp [hz]⟩
    · rw [href c, if_pos ⟨hm, hc⟩, hz]
      norm_num
    · rw [walt_start_cpus_eq]
      show (update_halt_cpus env
        (update_ref_counts env s cpus false).1 cpus) c = false
      have hz1 : ((update_ref_counts env s cpus false).1.halt_state
          c).ref_count ≠ 0 := by
        rw [update_ref_counts_ref, if_pos ⟨hm, hc⟩, hz]
        norm_num
      unfold update_halt_cpus
      rw [if_pos ⟨hc, hz1⟩]
  · intro c
    show (if cpus c = true ∧ c < penv.nr_cpus then pref c - 1
        else pref c) - pref c = 0 ∨
      (if cpus c = true ∧ c < penv.nr_cpus then pref c - 1
        else pref c) - pref c = -1
    split_ifs <;> omega
  · intro c hc hm hz
    constructor
    · show c ∈ ((List.range penv.nr_cpus).filter cpus).filter
        (fun c => pref c == 0)
      rw [List.mem_filter, List.mem_filter]
      exact ⟨⟨List.mem_range.mpr hc, hm⟩, by simp [hz]⟩
    · show (if cpus c = true ∧ c < penv.nr_cpus then pref c - 1
        else pref c) = -1
      rw [if_pos ⟨hm, hc⟩, hz]
      norm_num

/-- C7, witness for the amended theorem at a concrete input. -/
theorem c7_refcount_steps_witness :
    (∀ c, ((walt_halt_cpus env2 state0
        (oneCpu 0)).state.halt_state c).ref_count -
        (state0.halt_state c).ref_count = 0 ∨
      ((walt_halt_cpus env2 state0
        (oneCpu 0)).state.halt_state c).ref_count -
        (state0.halt_state c).ref_count = 1) ∧
    (∀ c, ((walt_start_cpus env2 state0
        (oneCpu 0)).state.halt_state c).ref_count -
        (state0.halt_state c).ref_count = 0 ∨
      ((walt_start_cpus env2 state0
        (oneCpu 0)).state.halt_state c).ref_count -
        (state0.halt_state c).ref_count = -1) ∧
    (∀ c, c < env2.nr_cpus → oneCpu 0 c = true →
      (state0.halt_state c).ref_count = 0 →
      c ∈ (walt_start_cpus env2 state0 (oneCpu 0)).warns ∧
      (walt_start_cpus env2 state0 (oneCpu 0)).ret = 0 ∧
      ((walt_start_cpus env2 state0
        (oneCpu 0)).state.halt_state c).ref_count = -1 ∧
      (walt_start_cpus env2 state0 (oneCpu 0)).cpus c = false) ∧
    (∀ c, (dec_test_ref_counts pauseEnv1 pref1 (oneCpu 0)).ref c -
        pref1 c = 0 ∨
      (dec_test_ref_counts pauseEnv1 pref1 (oneCpu 0)).ref c -
        pref1 c = -1) ∧
    (∀ c, c < pauseEnv1.nr_cpus → oneCpu 0 c = true → pref1 c = 0 →
      c ∈ (dec_test_ref_counts pauseEnv1 pref1 (oneCpu 0)).warns ∧
      (dec_test_ref_counts pauseEnv1 pref1 (oneCpu 0)).ref c = -1) :=
  c7_refcount_steps env2 pauseEnv1 state0 pref1 (oneCpu 0)

/-- C8: from an unhalted online cpu `c` with ref count 0 (and a succeeding
drain), two `halt({c})` calls both return 0, the second performing no
drain, leaving the mask bit set with ref count 2; the first `resume({c})`
leaves the bit set with ref count 1, and the second clears the bit and
returns the ref count to 0. -/
theorem c8_idempotence (env : Env) (s : WaltState) (c : ℕ)
    (s1 s2 s3 : WaltState)
    (hc : c < env.nr_cpus) (ho : env.online c = true)
    (hdrain : cpu_drain_rq env c = 0)
    (href : (s.halt_state c).ref_count = 0)
    (hmask : s.cpu_halt_mask c = false)
    (h1 : s1 = (walt_halt_cpus env s (oneCpu c)).state)
    (h2 : s2 = (walt_halt_cpus env s1 (oneCpu c)).state)
    (h3 : s3 = (walt_start_cpus env s2 (oneCpu c)).state) :
    (walt_halt_cpus env s (oneCpu c)).ret = 0 ∧
    s1.cpu_halt_mask c = true ∧ (s1.halt_state c).ref_count = 1 ∧
    (walt_halt_cpus env s1 (oneCpu c)).ret = 0 ∧
    (walt_halt_cpus env s1 (oneCpu c)).drained = [] ∧
    s2.cpu_halt_mask c = true ∧ (s2.halt_state c).ref_count = 2 ∧
    (walt_start_cpus env s2 (oneCpu c)).ret = 0 ∧
    s3.cpu_halt_mask c = true ∧ (s3.halt_state c).ref_count = 1 ∧
    (walt_start_cpus env s3 (oneCpu c)).ret = 0 ∧
    (walt_start_cpus env s3 (oneCpu c)).state.cpu_halt_mask c = false ∧
    ((walt_start_cpus env s3 (oneCpu c)).state.halt_state c).ref_count
      = 0 := by
  have hbeq : oneCpu c c = true := by simp [oneCpu]
  have r1ret : (walt_halt_cpus env s (oneCpu c)).ret = 0 := by
    apply walt_halt_cpus_ret_zero
    intro c' _ hm' _ _
    have hcc : c' = c := by simpa [oneCpu] using hm'
    rw [hcc]
    exact hdrain
  obtain ⟨href1, hmask1, _, _, _, _⟩ :=
    walt_halt_cpus_succ_spec env s (oneCpu c) (by rw [r1ret])
  have s1ref : (s1.halt_state c).ref_count = 1 := by
    rw [h1, href1 c, if_pos ⟨hbeq, hc⟩, href]
    norm_num
  have s1mask : s1.cpu_halt_mask c = true := by
    rw [h1, hmask1 c, if_pos ⟨hc, hbeq, href⟩]
  have hemp2 : cpumask_empty env (update_halt_cpus env s1 (oneCpu c))
      = true := by
    rw [cpumask_empty_iff]
    intro x hx
    unfold update_halt_cpus
    by_cases hxc : x = c
    · subst hxc
      rw [if_pos ⟨hx, by rw [s1ref]; norm_num⟩]
    · split_ifs with hcond
      · rfl
      · simp [oneCpu, hxc]
  have r2eq := walt_halt_cpus_eq_empty env s1 (oneCpu c) hemp2
  have r2ret : (walt_halt_cpus env s1 (oneCpu c)).ret = 0 := by
    rw [r2eq]
  have r2dr : (walt_halt_cpus env s1 (oneCpu c)).drained = [] := by
    rw [r2eq]
  have s2ref : (s2.halt_state c).ref_count = 2 := by
    rw [h2, r2eq]
    show ((update_ref_counts env s1 (oneCpu c) true).1.halt_state
      c).ref_count = 2
    rw [update_ref_counts_ref, if_pos ⟨hbeq, hc⟩, s1ref]
    norm_num
  have s2mask : s2.cpu_halt_mask c = true := by
    rw [h2, r2eq]
    show (update_ref_counts env s1 (oneCpu c) true).1.cpu_halt_mask c
      = true
    rw [update_ref_counts_mask, s1mask]
  obtain ⟨hret3, href3, hmask3, _, _⟩ := walt_start_cpus_spec env s2
    (oneCpu c)
  have s3ref : (s3.halt_state c).ref_count = 1 := by
    rw [h3, href3 c, if_pos ⟨hbeq, hc⟩, s2ref]
    norm_num
  have s3mask : s3.cpu_halt_mask c = true := by
    rw [h3, hmask3 c, if_neg (fun hcon => by
      rw [s2ref] at hcon
      exact absurd hcon.2.2 (by norm_num)), s2mask]
  obtain ⟨hret4, href4, hmask4, _, _⟩ := walt_start_cpus_spec env s3
    (oneCpu c)
  refine ⟨r1ret, s1mask, s1ref, r2ret, r2dr, s2mask, s2ref, hret3,
    s3mask, s3ref, hret4, ?_, ?_⟩
  · rw [hmask4 c, if_pos ⟨hbeq, hc, s3ref⟩]
  · rw [href4 c, if_pos ⟨hbeq, hc⟩, s3ref]
    norm_num

/-- C8, witness at a concrete input: the full four-call scenario on cpu 0
of two online cpus. -/
theorem c8_idempotence_witness :
    (walt_halt_cpus env2 state0 (oneCpu 0)).ret = 0 ∧
    sW1.cpu_halt_mask 0 = true ∧ (sW1.halt_state 0).ref_count = 1 ∧
    (walt_halt_cpus env2 sW1 (oneCpu 0)).ret = 0 ∧
    (walt_halt_cpus env2 sW1 (oneCpu 0)).drained = [] ∧
    sW2.cpu_halt_mask 0 = true ∧ (sW2.halt_state 0).ref_count = 2 ∧
    (walt_start_cpus env2 sW2 (oneCpu 0)).ret = 0 ∧
    sW3.cpu_halt_mask 0 = true ∧ (sW3.halt_state 0).ref_count = 1 ∧
    (walt_start_cpus env2 sW3 (oneCpu 0)).ret = 0 ∧
    (walt_start_cpus env2 sW3 (oneCpu 0)).state.cpu_halt_mask 0 =
      false ∧
    ((walt_start_cpus env2 sW3 (oneCpu 0)).state.halt_state
      0).ref_count = 0 :=
  c8_idempotence env2 state0 0 sW1 sW2 sW3 (by decide) (by decide)
    (by decide) (by decide) (by decide) rfl rfl rfl

/-- C2, counterexample: the claim requires every build variant to re-apply
halt state via deferred work on cpu-online; but the drain-based variant's
`walt_halt_init` has an empty body — starting with no online callback
registered, it registers none, while the delegate-based variant's
`walt_pause_init` does. -/
theorem c2_counterexample :
    walt_halt_init false = false ∧ walt_pause_init false = true := by
  decide

/-- C2, amended: in the walt_pause.c variant, the online hotplug callback
schedules the deferred work whenever the onlined cpu has a nonzero ref
count, and the deferred work re-applies the pause (invokes the platform
`pause_cpus`) on exactly the online cpus with nonzero ref counts; the
walt_halt.c variant registers no online callback at all (`walt_halt_init`
is empty), its persistent halt mask making re-application unnecessary. -/
theorem c2_online_repause (penv : PauseEnv) (ref : ℕ → ℤ) (cpu : ℕ)
    (hc : cpu < penv.nr_cpus) (ho : penv.online cpu = true)
    (hpos : 0 < ref cpu) :
    (walt_pause_hp_online ref cpu).1 = true ∧
    (walt_pause_hp_online ref cpu).2 = 0 ∧
    (walt_pause_online_workfn penv ref).re_pause_cpus cpu = true ∧
    (walt_pause_online_workfn penv ref).pause_invoked = true ∧
    (∀ c, (walt_pause_online_workfn penv ref).re_pause_cpus c = true ↔
      (c < penv.nr_cpus ∧ penv.online c = true ∧ ref c ≠ 0)) ∧
    (∀ b, walt_halt_init b = b) := by
  have hrp : (walt_pause_online_workfn penv ref).re_pause_cpus =
      fun c => decide (c < penv.nr_cpus) && penv.online c &&
        decide (ref c ≠ 0) := by
    unfold walt_pause_online_workfn
    split_ifs <;> rfl
  have hne0 : ref cpu ≠ 0 := by omega
  have hmem : cpu ∈ (List.range penv.nr_cpus).filter
      (fun c => penv.online c && decide (ref c ≠ 0)) :=
    List.mem_filter.mpr ⟨List.mem_range.mpr hc, by simp [ho, hne0]⟩
  have hnemp : ¬ ((List.range penv.nr_cpus).filter
      (fun c => penv.online c && decide (ref c ≠ 0))).isEmpty = true := by
    rw [List.isEmpty_iff]
    intro h
    rw [h] at hmem
    simp at hmem
  refine ⟨by simp [walt_pause_hp_online, hne0], rfl, ?_, ?_, ?_,
    fun b => rfl⟩
  · rw [hrp]
    simp [hc, ho, hne0]
  · unfold walt_pause_online_workfn
    rw [if_neg hnemp]
  · intro c
    rw [hrp]
    simp [Bool.and_eq_true, decide_eq_true_iff]
    tauto

/-- C2, witness for the amended theorem at a concrete input: cpu 0 online
with ref count 1. -/
theorem c2_online_repause_witness :
    (walt_pause_hp_online pref1 0).1 = true ∧
    (walt_pause_hp_online pref1 0).2 = 0 ∧
    (walt_pause_online_workfn pauseEnv1 pref1).re_pause_cpus 0 = true ∧
    (walt_pause_online_workfn pauseEnv1 pref1).pause_invoked = true ∧
    (∀ c, (walt_pause_online_workfn pauseEnv1
        pref1).re_pause_cpus c = true ↔
      (c < pauseEnv1.nr_cpus ∧ pauseEnv1.online c = true ∧
        pref1 c ≠ 0)) ∧
    (∀ b, walt_halt_init b = b) :=
  c2_online_repause pauseEnv1 pref1 0 (by decide) (by decide) (by decide)

theorem pick_migrate_task_mem (l : List Task) (b : Task) :
    pick_migrate_task b l ∈ b :: l := by
  induction l generalizing b with
  | nil =>
    simp [pick_migrate_task]
  | cons x xs ih =>
    have h := ih (if b.prio < x.prio then x else b)
    show pick_migrate_task (if b.prio < x.prio then x else b) xs ∈
      b :: x :: xs
    rcases List.mem_cons.mp h with h1 | h1
    · rw [h1]
      by_cases hx : b.prio < x.prio <;> simp [hx]
    · simp [List.mem_cons, h1]

theorem migrate_tasks_loop_spec (fb : Task → ℕ) :
    ∀ (n : ℕ) (pending kthreads : List Task)
      (migrated : List (Task × ℕ)), pending.length = n →
      ((migrate_tasks_loop fb pending kthreads migrated).1.Perm
        (kthreads ++ pending.filter (fun t => t.per_cpu_kthread)) ∧
      ((migrate_tasks_loop fb pending kthreads migrated).2.map
        Prod.fst).Perm (migrated.map Prod.fst ++
          pending.filter (fun t => !t.per_cpu_kthread)) ∧
      (∀ p ∈ (migrate_tasks_loop fb pending kthreads migrated).2,
        p.2 = fb p.1 ∨ p ∈ migrated)) := by
  intro n
  induction n using Nat.strong_induction_on with
  | _ n ih =>
    intro pending kthreads migrated hlen
    match pending with
    | [] =>
      have h0 : migrate_tasks_loop fb [] kthreads migrated =
          (kthreads, migrated) := by
        simp [migrate_tasks_loop]
      refine ⟨by rw [h0]; simp, by rw [h0]; simp, ?_⟩
      rw [h0]
      exact fun p hp => Or.inr hp
    | t :: rest =>
      have hmem : pick_migrate_task t rest ∈ t :: rest :=
        pick_migrate_task_mem rest t
      have hlep : ((t :: rest).erase (pick_migrate_task t rest)).length <
          n := by
        rw [List.length_erase_of_mem hmem]
        have hlc : (t :: rest).length = rest.length + 1 :=
          List.length_cons t rest
        omega
      have hperm : (t :: rest).Perm
          (pick_migrate_task t rest ::
            (t :: rest).erase (pick_migrate_task t rest)) :=
        List.perm_cons_erase hmem
      by_cases hp : (pick_migrate_task t rest).per_cpu_kthread = true
      · have heq : migrate_tasks_loop fb (t :: rest) kthreads migrated =
            migrate_tasks_loop fb
              ((t :: rest).erase (pick_migrate_task t rest))
              (pick_migrate_task t rest :: kthreads) migrated := by
          simp only [migrate_tasks_loop, hp, reduceIte]
        obtain ⟨ih1, ih2, ih3⟩ := ih _ hlep
          ((t :: rest).erase (pick_migrate_task t rest))
          (pick_migrate_task t rest :: kthreads) migrated rfl
        have hfp : (t :: rest).filter (fun t => t.per_cpu_kthread)
            |>.Perm (pick_migrate_task t rest ::
              ((t :: rest).erase
                (pick_migrate_task t rest)).filter
                (fun t => t.per_cpu_kthread)) := by
          have h2 := hperm.filter (fun t => t.per_cpu_kthread)
          have h3 : (pick_migrate_task t rest ::
              (t :: rest).erase (pick_migrate_task t rest)).filter
                (fun t => t.per_cpu_kthread) =
              pick_migrate_task t rest ::
                ((t :: rest).erase (pick_migrate_task t rest)).filter
                  (fun t => t.per_cpu_kthread) :=
            List.filter_cons_of_pos hp
          rw [h3] at h2
          exact h2
        have hfq : (t :: rest).filter (fun t => !t.per_cpu_kthread)
            |>.Perm (((t :: rest).erase
              (pick_migrate_task t rest)).filter
                (fun t => !t.per_cpu_kthread)) := by
          have h2 := hperm.filter (fun t => !t.per_cpu_kthread)
          have h3 : (pick_migrate_task t rest ::
              (t :: rest).erase (pick_migrate_task t rest)).filter
                (fun t => !t.per_cpu_kthread) =
              ((t :: rest).erase (pick_migrate_task t rest)).filter
                (fun t => !t.per_cpu_kthread) :=
            List.filter_cons_of_neg (by simp [hp])
          rw [h3] at h2
          exact h2
        refine ⟨?_, ?_, ?_⟩
        · rw [heq]
          refine ih1.trans ?_
          refine List.Perm.trans ?_
            ((hfp.symm).append_left kthreads)
          exact (List.perm_middle).symm
        · rw [heq]
          exact ih2.trans ((hfq.symm).append_left _)
        · rw [heq]
          exact ih3
      · have heq : migrate_tasks_loop fb (t :: rest) kthreads migrated =
            migrate_tasks_loop fb
              ((t :: rest).erase (pick_migrate_task t rest)) kthreads
              (migrated ++ [(pick_migrate_task t rest,
                fb (pick_migrate_task t rest))]) := by
          simp only [migrate_tasks_loop, hp, Bool.false_eq_true,
            reduceIte]
        obtain ⟨ih1, ih2, ih3⟩ := ih _ hlep
          ((t :: rest).erase (pick_migrate_task t rest)) kthreads
          (migrated ++ [(pick_migrate_task t rest,
            fb (pick_migrate_task t rest))]) rfl
        have hfp : (t :: rest).filter (fun t => t.per_cpu_kthread)
            |>.Perm (((t :: rest).erase
              (pick_migrate_task t rest)).filter
                (fun t => t.per_cpu_kthread)) := by
          have h2 := hperm.filter (fun t => t.per_cpu_kthread)
          have h3 : (pick_migrate_task t rest ::
              (t :: rest).erase (pick_migrate_task t rest)).filter
                (fun t => t.per_cpu_kthread) =
              ((t :: rest).erase (pick_migrate_task t rest)).filter
                (fun t => t.per_cpu_kthread) :=
            List.filter_cons_of_neg (by simp [hp])
          rw [h3] at h2
          exact h2
        have hfq : (t :: rest).filter (fun t => !t.per_cpu_kthread)
            |>.Perm (pick_migrate_task t rest ::
              ((t :: rest).erase
                (pick_migrate_task t rest)).filter
                (fun t => !t.per_cpu_kthread)) := by
          have h2 := hperm.filter (fun t => !t.per_cpu_kthread)
          have h3 : (pick_migrate_task t rest ::
              (t :: rest).erase (pick_migrate_task t rest)).filter
                (fun t => !t.per_cpu_kthread) =
              pick_migrate_task t rest ::
                ((t :: rest).erase (pick_migrate_task t rest)).filter
                  (fun t => !t.per_cpu_kthread) :=
            List.filter_cons_of_pos (by simp [hp])
          rw [h3] at h2
          exact h2
        refine ⟨?_, ?_, ?_⟩
        · rw [heq]
          exact ih1.trans ((hfp.symm).append_left kthreads)
        · rw [heq]
          refine ih2.trans ?_
          rw [List.map_append]
          simp only [List.map_cons, List.map_nil]
          rw [List.append_assoc, List.singleton_append]
          exact (hfq.symm).append_left _
        · rw [heq]
          intro p hpm
          rcases ih3 p hpm with h | h
          · exact Or.inl h
          · rcases List.mem_append.mp h with h' | h'
            · exact Or.inr h'
            · rw [List.mem_singleton] at h'
              subst h'
              exact Or.inl rfl

/-- C4: for a run queue containing exactly one migratable task (every
other queued task a per-cpu pinned helper), the drain loop migrates that
one task to the destination picked by the affinity-fallback rule
`select_fallback_rq`, temporarily detaches each pinned helper and leaves
all of them (and only them) reattached on the original queue, restores
the `rq->stop` placeholder, and leaves the runnable count (excluding the
stop placeholder) equal to the pinned-helper count. -/
theorem c4_drain_correctness (select_fallback_rq : ℕ → Task → ℕ)
    (rq : Rq) (mt : Task)
    (hone : rq.tasks.filter (fun t => !t.per_cpu_kthread) = [mt]) :
    (migrate_tasks select_fallback_rq rq).2 =
      [(mt, select_fallback_rq rq.cpu mt)] ∧
    (migrate_tasks select_fallback_rq rq).1.tasks.Perm
      (rq.tasks.filter (fun t => t.per_cpu_kthread)) ∧
    (migrate_tasks select_fallback_rq rq).1.stop = rq.stop ∧
    (migrate_tasks select_fallback_rq rq).1.tasks.length =
      rq.tasks.length - 1 ∧
    (migrate_tasks select_fallback_rq rq).1.cpu = rq.cpu := by
  obtain ⟨h1, h2, h3⟩ := migrate_tasks_loop_spec
    (fun p => select_fallback_rq rq.cpu p) rq.tasks.length rq.tasks
    [] [] rfl
  have hloop2 : (migrate_tasks select_fallback_rq rq).2 =
      (migrate_tasks_loop (fun p => select_fallback_rq rq.cpu p)
        rq.tasks [] []).2 := rfl
  have hloop1 : (migrate_tasks select_fallback_rq rq).1.tasks =
      (migrate_tasks_loop (fun p => select_fallback_rq rq.cpu p)
        rq.tasks [] []).1 := rfl
  have hmt : (migrate_tasks select_fallback_rq rq).2 =
      [(mt, select_fallback_rq rq.cpu mt)] := by
    rw [hloop2]
    have hmap : ((migrate_tasks_loop
        (fun p => select_fallback_rq rq.cpu p) rq.tasks [] []).2.map
        Prod.fst) = [mt] := by
      refine List.perm_singleton.mp ?_
      refine h2.trans ?_
      rw [hone]
      rfl
    match hl : (migrate_tasks_loop
        (fun p => select_fallback_rq rq.cpu p) rq.tasks [] []).2 with
    | [] =>
      rw [hl] at hmap
      simp at hmap
    | p :: tl =>
      rw [hl] at hmap
      simp only [List.map_cons] at hmap
      have hp1 : p.1 = mt := (List.cons.injEq _ _ _ _ ▸ hmap).1
      have htl : tl.map Prod.fst = [] :=
        (List.cons.injEq _ _ _ _ ▸ hmap).2
      have htln : tl = [] := List.map_eq_nil_iff.mp htl
      have hpm : p ∈ (migrate_tasks_loop
          (fun q => select_fallback_rq rq.cpu q) rq.tasks [] []).2 := by
        rw [hl]
        exact List.mem_cons_self p tl
      have hp2 : p.2 = select_fallback_rq rq.cpu p.1 := by
        rcases h3 p hpm with h | h
        · exact h
        · simp at h
      rw [htln]
      have : p = (mt, select_fallback_rq rq.cpu mt) := by
        rw [Prod.ext_iff]
        constructor
        · exact hp1
        · rw [hp2, hp1]
      rw [this]
  have hlen : rq.tasks.length =
      (rq.tasks.filter (fun t => t.per_cpu_kthread)).length + 1 := by
    have hp := List.filter_append_perm (fun t => t.per_cpu_kthread)
      rq.tasks
    have := hp.length_eq
    rw [List.length_append, hone] at this
    simp at this
    omega
  refine ⟨hmt, ?_, rfl, ?_, rfl⟩
  · rw [hloop1]
    refine h1.trans ?_
    rw [List.nil_append]
  · rw [hloop1]
    have := h1.length_eq
    rw [List.length_append] at this
    simp at this
    omega

/-- C4, witness at a concrete input: a queue on cpu 3 with one migratable
task and two pinned kthreads, fallback rule sending tasks to cpu 7. -/
theorem c4_drain_correctness_witness :
    (migrate_tasks fbW rqW).2 = [(taskM, fbW rqW.cpu taskM)] ∧
    (migrate_tasks fbW rqW).1.tasks.Perm
      (rqW.tasks.filter (fun t => t.per_cpu_kthread)) ∧
    (migrate_tasks fbW rqW).1.stop = rqW.stop ∧
    (migrate_tasks fbW rqW).1.tasks.length = rqW.tasks.length - 1 ∧
    (migrate_tasks fbW rqW).1.cpu = rqW.cpu :=
  c4_drain_correctness fbW rqW taskM (by decide)

end Walt

